import Mathlib

/-!
Verification development for the svg-nd library (a Rust crate building SVG
diagrams out of geometric primitives).

The definitions below are a shallow embedding of the crate's source:

* `Point` models `geo_nd::FArray<f64, 2>` (an external 2-vector type);
* `Range` embeds `src/range.rs`;
* `BBox` embeds `src/bbox.rs`;
* `Transform` embeds `src/types/transform.rs`;
* `Bezier`/`BezierPath` embed `src/bezier_path.rs` (the underlying curve
  primitive is the external `bezier-nd` crate and is modelled from the spec);
* `Polygon` embeds `src/polygon.rs`;
* `SvgElement` and its finalize pass embed `src/svg_element.rs`;
* `ElementIter` embeds `src/svg_event.rs`;
* `Svg` embeds `src/svg.rs`.

Machine floating point (`f64`) is modelled by the real numbers; string
formatting of numbers (`format!("{:.4}", v)` and friends) is abstracted by a
placeholder rendering function, since no theorem below inspects the digits of
a formatted number.
-/

open scoped Classical

noncomputable section

/-! ## Points

The crate uses `geo_nd::FArray<f64, 2>` for 2-D points.  The `geo_nd` crate is
an external collaborator (not part of this repository), so the few vector
operations the crate uses are modelled from the spec: componentwise
arithmetic, the Euclidean norm, and rotation about a point.
-/

/-- A 2-D point with real coordinates, modelling `geo_nd::FArray<f64, 2>`. -/
structure Point where
  x : ℝ
  y : ℝ

instance : Add Point := ⟨fun p q => ⟨p.x + q.x, p.y + q.y⟩⟩

instance : Sub Point := ⟨fun p q => ⟨p.x - q.x, p.y - q.y⟩⟩

instance : Neg Point := ⟨fun p => ⟨-p.x, -p.y⟩⟩

instance : SMul ℝ Point := ⟨fun k p => ⟨k * p.x, k * p.y⟩⟩

/-- `Point::zero()` of `geo_nd`. -/
def Point.zero : Point := ⟨0, 0⟩

/-- `is_zero` of `geo_nd`: every component is zero. -/
def Point.is_zero (p : Point) : Prop := p.x = 0 ∧ p.y = 0

/-- Euclidean norm of a 2-vector (`geo_nd::vector::length`). -/
def Point.norm (p : Point) : ℝ := Real.sqrt (p.x ^ 2 + p.y ^ 2)

/-- Modelled from the spec: `geo_nd::vector::rotate_around(v, pt, radians, 0, 1)`,
rotation of `p` about the point `c` by `radians` (counterclockwise) in the
coordinate plane spanned by coordinates 0 and 1. -/
def Point.rotate_around (p : Point) (c : Point) (radians : ℝ) : Point :=
  ⟨Real.cos radians * (p.x - c.x) - Real.sin radians * (p.y - c.y) + c.x,
   Real.sin radians * (p.x - c.x) + Real.cos radians * (p.y - c.y) + c.y⟩

/-- `f64::to_radians`: degrees to radians. -/
def toRadians (d : ℝ) : ℝ := d * (Real.pi / 180)

/-- `f64::to_degrees`: radians to degrees. -/
def toDegrees (r : ℝ) : ℝ := r * (180 / Real.pi)

/-- `f64::atan2(self = y, x)`, modelled by the argument of the complex number
`x + y*i`, which like `atan2` takes values in `(-π, π]` and sends `(0, 0)`
to `0`. -/
def atan2 (y x : ℝ) : ℝ := Complex.arg ⟨x, y⟩

/-! ## Range (`src/range.rs`) -/

/-- A 1-D range.  `min <= max` for a valid range; `min > max` indicates an
empty range (`src/range.rs`). -/
structure Range where
  min : ℝ
  max : ℝ

namespace Range

/-- `Range::new`. -/
def new (min max : ℝ) : Range := ⟨min, max⟩

/-- `Range::none`: the canonical empty range `(0, -1)`. -/
def none : Range := ⟨0, -1⟩

/-- `Range::is_none`: true if the range is empty. -/
def is_none (r : Range) : Prop := r.min > r.max

/-- `Range::size`. -/
def size (r : Range) : ℝ := if r.is_none then 0 else r.max - r.min

/-- `Range::center`. -/
def center (r : Range) : ℝ := (r.max + r.min) / 2

/-- `Range::include`: include a point into the range, expanding min or max if
required. -/
def include' (r : Range) (x : ℝ) : Range :=
  if r.is_none then ⟨x, x⟩
  else ⟨if x < r.min then x else r.min, if x > r.max then x else r.max⟩

/-- `Range::enlarge`. -/
def enlarge (r : Range) (value : ℝ) : Range :=
  if ¬r.is_none then ⟨r.min - value, r.max + value⟩ else r

/-- `Range::reduce`. -/
def reduce (r : Range) (value : ℝ) : Range :=
  if ¬r.is_none then ⟨r.min + value, r.max - value⟩ else r

/-- `Range::union`. -/
def union (r : Range) (other : Range) : Range :=
  if other.is_none then r
  else if r.is_none then ⟨other.min, other.max⟩
  else ⟨if other.min < r.min then other.min else r.min,
        if other.max > r.max then other.max else r.max⟩

/-- `Range::intersect` as written in the source.  Note that the two
empty-operand branches return the *other* operand's bounds, exactly as in
`Range::union`. -/
def intersect (r : Range) (other : Range) : Range :=
  if other.is_none then r
  else if r.is_none then ⟨other.min, other.max⟩
  else ⟨if other.min > r.min then other.min else r.min,
        if other.max < r.max then other.max else r.max⟩

/-- `impl Add<f64> for Range`. -/
def addf (r : Range) (scale : ℝ) : Range := ⟨r.min + scale, r.max + scale⟩

/-- `impl Sub<f64> for Range`. -/
def subf (r : Range) (scale : ℝ) : Range := ⟨r.min - scale, r.max - scale⟩

/-- `impl Mul<f64> for Range`: a negative factor swaps min and max. -/
def mulf (r : Range) (scale : ℝ) : Range :=
  if scale < 0 then ⟨r.max * scale, r.min * scale⟩
  else ⟨r.min * scale, r.max * scale⟩

end Range

/-! ## BBox (`src/bbox.rs`) -/

/-- A bounding box: a pair of ranges (`src/bbox.rs`). -/
structure BBox where
  x : Range
  y : Range

namespace BBox

/-- `BBox::none`. -/
def none : BBox := ⟨Range.none, Range.none⟩

/-- `BBox::is_none`: true if either axis range is empty. -/
def is_none (b : BBox) : Prop := b.x.is_none ∨ b.y.is_none

/-- `BBox::new`: normalises each axis so that min <= max. -/
def new (x0 y0 x1 y1 : ℝ) : BBox :=
  ⟨if x0 < x1 then Range.new x0 x1 else Range.new x1 x0,
   if y0 < y1 then Range.new y0 y1 else Range.new y1 y0⟩

/-- `BBox::of_ranges`. -/
def of_ranges (x y : Range) : BBox := ⟨x, y⟩

/-- `BBox::center`. -/
def center (b : BBox) : Point := ⟨b.x.center, b.y.center⟩

/-- `BBox::width`. -/
def width (b : BBox) : ℝ := b.x.size

/-- `BBox::height`. -/
def height (b : BBox) : ℝ := b.y.size

/-- `BBox::get_cwh`. -/
def get_cwh (b : BBox) : Point × ℝ × ℝ := (b.center, b.width, b.height)

/-- `BBox::enlarge`.  In the Rust source the body is
`self.x.enlarge(value); self.y.enlarge(value); self` — but `Range::enlarge`
takes its receiver *by value* and returns the enlarged copy, so both returned
ranges are dropped and the box is returned unchanged.  The dead computations
are kept here to mirror the source. -/
def enlarge (b : BBox) (value : ℝ) : BBox :=
  let _dropped_x := b.x.enlarge value
  let _dropped_y := b.y.enlarge value
  b

/-- `BBox::reduce`.  The Rust body is identical to `BBox::enlarge` (it also
calls `Range::enlarge`, not `Range::reduce`), and it likewise drops the
returned ranges, so the box is returned unchanged. -/
def reduce (b : BBox) (value : ℝ) : BBox :=
  let _dropped_x := b.x.enlarge value
  let _dropped_y := b.y.enlarge value
  b

/-- `BBox::union`: if either is none then just the other. -/
def union (b : BBox) (other : BBox) : BBox :=
  if other.is_none then b
  else if b.is_none then other
  else ⟨b.x.union other.x, b.y.union other.y⟩

/-- `BBox::intersect`: if either is none then the result is none. -/
def intersect (b : BBox) (other : BBox) : BBox :=
  if other.is_none then other
  else if b.is_none then b
  else ⟨b.x.intersect other.x, b.y.intersect other.y⟩

/-- Modelled from the spec: `BBox::include` (the `include` method used by the
element finalize pass is not part of the `bbox.rs` snapshot; the spec says
`include` on an empty box sets `min = max = value` on each axis, i.e. it
includes the point into both axis ranges). -/
def include' (b : BBox) (p : Point) : BBox := ⟨b.x.include' p.x, b.y.include' p.y⟩

end BBox

/-! ## Transform (`src/types/transform.rs`) -/

/-- Modelled from the spec: the crate's typed error (the `error.rs` module is
not part of the source snapshot).  The spec's only recoverable error kind is
an *invalid transform matrix* failure carrying a reason string, matching the
`Error::InvalidTransformationMatrix { reason }` variant used by
`Transform::of_matrix`. -/
inductive Error where
  | invalidTransformationMatrix (reason : String)
deriving DecidableEq

/-- A transformation `translate(rotate(scale(pt)))` (`src/types/transform.rs`). -/
structure Transform where
  /-- Translation - applied last -/
  translation : Point
  /-- Rotation around the origin in *degrees* -/
  rotation : ℝ
  /-- Scale factor -/
  scale : ℝ

namespace Transform

/-- `Transform::default`: identity transform. -/
def default : Transform := ⟨Point.zero, 0, 1⟩

/-- `Transform::of_trs`. -/
def of_trs (translation : Point) (rotation scale : ℝ) : Transform :=
  ⟨translation, rotation, scale⟩

/-- `Transform::is_identity`. -/
def is_identity (t : Transform) : Prop :=
  t.rotation = 0 ∧ t.scale = 1 ∧ t.translation.is_zero

/-- `Transform::to_matrix`: the 3x3 matrix (as a row-major 9-element list)
`[sc*c, -sc*s, dx, sc*s, sc*c, dy, 0, 0, 1]`. -/
def to_matrix (t : Transform) : List ℝ :=
  let sc := t.scale
  let s := Real.sin (toRadians t.rotation)
  let c := Real.cos (toRadians t.rotation)
  let dx := t.translation.x
  let dy := t.translation.y
  [sc * c, -sc * s, dx, sc * s, sc * c, dy, 0, 0, 1]

/-- `Transform::of_matrix`: decompose a 3x3 matrix into
translate-rotate-scale form, rejecting matrices that are not 3-by-3, do not
have bottom row `(0,0,1)`, are skewed, or have a determinant below `-1e-9`.
List entries are read with `getD` (out-of-range reads cannot occur since the
length is checked first). -/
def of_matrix (matrix : List ℝ) : Except Error Transform :=
  if matrix.length ≠ 9 then
    .error (.invalidTransformationMatrix "matrix was not 3-by-3")
  else if ¬(matrix.getD 8 0 = 1 ∧ matrix.getD 7 0 = 0 ∧ matrix.getD 6 0 = 0) then
    .error (.invalidTransformationMatrix "bottom row must be 0, 0, 1")
  else
    let dx := matrix.getD 2 0
    let dy := matrix.getD 5 0
    let skew := matrix.getD 0 0 * matrix.getD 1 0 + matrix.getD 4 0 * matrix.getD 3 0
    if |skew| > 1e-6 then
      .error (.invalidTransformationMatrix
        "rotation portion (top left 4 values) represent a skew not a rotation")
    else
      let sc2 := matrix.getD 0 0 * matrix.getD 4 0 - matrix.getD 1 0 * matrix.getD 3 0
      if sc2 < -1e-9 then
        .error (.invalidTransformationMatrix "determinant (scale squared) is negative")
      else
        let sc := if sc2 < 0 then 0 else Real.sqrt sc2
        let angle := toDegrees (atan2 (matrix.getD 3 0) (matrix.getD 4 0))
        .ok (of_trs ⟨dx, dy⟩ angle sc)

/-- `Transform::apply`: apply the transform to a point via its matrix. -/
def apply (t : Transform) (pt : Point) : Point :=
  let m := t.to_matrix
  ⟨m.getD 0 0 * pt.x + m.getD 1 0 * pt.y + m.getD 2 0,
   m.getD 3 0 * pt.x + m.getD 4 0 * pt.y + m.getD 5 0⟩

/-- `Transform::apply_to_transform`: compose two transforms; rotations add,
scales multiply, and the translation is `self` applied to `other`'s
translation plus `self`'s translation.  Note that the source passes
`self.rotation` — a value held in degrees — directly as the radians argument
of `geo_nd`'s `rotate_around`, with no degree-to-radian conversion; the
embedding reproduces that as written. -/
def apply_to_transform (t other : Transform) : Transform :=
  let dxy := other.translation.rotate_around Point.zero t.rotation
  let dxy := t.scale • dxy + t.translation
  of_trs dxy (t.rotation + other.rotation) (t.scale * other.scale)

/-- Placeholder rendering of an `f64` with `format!("{:.4}", v)`; the digits
of the rendering are never inspected by any theorem in this development, only
whether surrounding strings are empty. -/
def fmt4 (_v : ℝ) : String := "num"

/-- `Transform::as_svg_attribute_string`: emits a `translate(..)` part when
the translation is non-zero, a `rotate(..)` part when the rotation is
non-zero, and a `scale(..)` part when the scale is not one (numeric digits
via the placeholder `fmt4`). -/
def as_svg_attribute_string (t : Transform) : String :=
  (if t.translation.x ≠ 0 ∨ t.translation.y ≠ 0 then
    "translate(" ++ fmt4 t.translation.x ++ " " ++ fmt4 t.translation.y ++ ") "
  else "") ++
  (if t.rotation ≠ 0 then "rotate(" ++ fmt4 t.rotation ++ ") " else "") ++
  (if t.scale ≠ 1 then "scale(" ++ fmt4 t.scale ++ ") " else "")

end Transform

/-! ## Bezier (external `bezier-nd` crate, modelled) and BezierPath
(`src/bezier_path.rs`) -/

/-- Modelled from the spec: the external `bezier-nd` curve primitive, as a
free datatype of the three constructor applications the crate uses — straight
lines, 90-degree arcs (for ellipses), and rounded corners.  A rounded corner
records its two trim points (its endpoints). -/
inductive Bezier where
  | line (p0 p1 : Point)
  | arc (angle radius : ℝ) (origin vx vy : Point) (rotate : ℝ)
  | corner (p0 p1 : Point) (radius : ℝ)

instance : Inhabited Bezier := ⟨.line Point.zero Point.zero⟩

namespace Bezier

/-- Modelled from the spec: `Bezier::of_round_corner(corner, v0, v1, radius)`
joins two trim points at distance `radius` along the two (normalised) tangent
directions back from the corner. -/
def of_round_corner (c v0 v1 : Point) (radius : ℝ) : Bezier :=
  .corner (c - (radius / v0.norm) • v0) (c - (radius / v1.norm) • v1) radius

/-- `Bezier::is_line` of `bezier-nd`. -/
def is_line : Bezier → Bool
  | .line _ _ => true
  | _ => false

/-- `Bezier::borrow_pt` of `bezier-nd`: endpoint 0 or 1 of the curve.  Arcs
are never interrogated for endpoints by this development (the crate only
queries lines and rounded corners in `BezierPath::round`), so an arc answers
its origin. -/
def borrow_pt (b : Bezier) (index : Nat) : Point :=
  match b with
  | .line p0 p1 => if index = 0 then p0 else p1
  | .corner p0 p1 _ => if index = 0 then p0 else p1
  | .arc _ _ origin _ _ _ => origin

/-- Modelled from the spec: `Bezier::tangent_at` for a straight line is its
constant direction `p1 - p0` (the only curves whose tangents the crate reads
are lines). -/
def tangent_at (b : Bezier) (_t : ℝ) : Point :=
  match b with
  | .line p0 p1 => p1 - p0
  | .corner p0 p1 _ => p1 - p0
  | .arc _ _ _ _ _ _ => Point.zero

end Bezier

/-- Insertion into a list at an index, modelling `Vec::insert` (inserting at
the length appends). -/
def listInsertAt {α : Type} (i : Nat) (a : α) : List α → List α
  | [] => [a]
  | x :: xs =>
    match i with
    | 0 => a :: x :: xs
    | i + 1 => x :: listInsertAt i a xs

/-- A path: a chain of Beziers (`src/bezier_path.rs`). -/
structure BezierPath where
  elements : List Bezier

namespace BezierPath

/-- `BezierPath::default`: the empty path. -/
def default : BezierPath := ⟨[]⟩

/-- `BezierPath::add_bezier`. -/
def add_bezier (bp : BezierPath) (b : Bezier) : BezierPath :=
  ⟨bp.elements ++ [b]⟩

/-- `BezierPath::of_ellipse`: four 90-degree arcs. -/
def of_ellipse (origin : Point) (radius eccentricity degrees : ℝ) : BezierPath :=
  let ra := toRadians 90
  let rd := toRadians degrees
  let x : Point := ⟨eccentricity, 0⟩
  let y : Point := ⟨0, 1⟩
  ⟨[.arc ra radius origin x y rd,
    .arc ra radius origin y (-x) rd,
    .arc ra radius origin (-x) (-y) rd,
    .arc ra radius origin (-y) x rd]⟩

/-- One iteration of the body of the `loop` in `BezierPath::round` at index
`i`: if the elements at `i` and `(i+1) % n` are both lines, shorten both and
insert the rounding corner curve between them. -/
def roundStep (rounding : ℝ) (es : List Bezier) (i : Nat) : List Bezier :=
  let n := es.length
  let i1 := (i + 1) % n
  match es.get? i, es.get? i1 with
  | some b0, some b1 =>
    if b0.is_line ∧ b1.is_line then
      let corner := b0.borrow_pt 1
      let v0 := b0.tangent_at 1
      let v1 := -(b1.tangent_at 0)
      let bezier := Bezier.of_round_corner corner v0 v1 rounding
      let np00 := b0.borrow_pt 0
      let np01 := bezier.borrow_pt 0
      let np10 := bezier.borrow_pt 1
      let np11 := b1.borrow_pt 1
      let es := es.set i (.line np00 np01)
      let es := es.set i1 (.line np10 np11)
      listInsertAt (i + 1) bezier es
    else es
  | _, _ => es

/-- The `loop` of `BezierPath::round`, traversing indices from `i` down to 0. -/
def roundLoop (rounding : ℝ) (es : List Bezier) : Nat → List Bezier
  | 0 => roundStep rounding es 0
  | i + 1 => roundLoop rounding (roundStep rounding es (i + 1)) i

/-- `BezierPath::round`: for every adjacent pair of line segments, insert a
rounded corner of the given radius between the (shortened) lines.  If the
path is not closed the pair wrapping from the last to the first element is
skipped (the traversal starts at `n - 2` instead of `n - 1`). -/
def round (bp : BezierPath) (rounding : ℝ) (closed : Bool) : BezierPath :=
  let n := bp.elements.length
  if n < 2 ∨ rounding = 0 then bp
  else ⟨roundLoop rounding bp.elements (if closed then n - 1 else n - 2)⟩

/-- `BezierPath::of_points`: straight segments joining consecutive corners
(wrapping last to first), then rounded with `round(rounding, true)`. -/
def of_points (corners : List Point) (rounding : ℝ) : BezierPath :=
  let n := corners.length
  let bp : BezierPath :=
    ⟨(List.range n).map fun i =>
      .line (corners.getD (i % n) Point.zero) (corners.getD ((i + 1) % n) Point.zero)⟩
  bp.round rounding true

/-- `BezierPath::get_pt`: the start (`index = 0`) or end point of the path. -/
def get_pt (bp : BezierPath) (index : Nat) : Point :=
  let n := bp.elements.length
  if n = 0 then Point.zero
  else if index = 0 then (bp.elements.headI).borrow_pt 0
  else (bp.elements.getLastD (.line Point.zero Point.zero)).borrow_pt 1

end BezierPath

/-! ## Polygon (`src/polygon.rs`) -/

/-- An n-gon descriptor (`src/polygon.rs`): `vertices == 0` denotes an
ellipse, `== 1` an empty path, `>= 2` a (possibly stellated, rounded,
eccentric, rotated) polygon. -/
structure Polygon where
  center : Point
  vertices : Nat
  /-- height -/
  size : ℝ
  /-- if not 0, then double the points and make a star -/
  stellate_size : ℝ
  /-- width/height; i.e. width = size*eccentricity -/
  eccentricity : ℝ
  /-- rotation in degrees (after eccentricity) -/
  rotation : ℝ
  /-- 0 for no rounding of corners -/
  rounding : ℝ

namespace Polygon

/-- `Polygon::default`. -/
def default : Polygon :=
  { center := Point.zero
    vertices := 0
    rotation := 0
    rounding := 0
    size := 0
    eccentricity := 1
    stellate_size := 0 }

/-- `Polygon::set_vertices`. -/
def set_vertices (p : Polygon) (vertices : Nat) : Polygon := { p with vertices }

/-- `Polygon::set_size`. -/
def set_size (p : Polygon) (size eccentricity : ℝ) : Polygon :=
  { p with size, eccentricity }

/-- `Polygon::set_rounding`. -/
def set_rounding (p : Polygon) (rounding : ℝ) : Polygon := { p with rounding }

/-- `Polygon::set_rotation`. -/
def set_rotation (p : Polygon) (rotation : ℝ) : Polygon := { p with rotation }

/-- `Polygon::set_stellate_size`. -/
def set_stellate_size (p : Polygon) (stellate_size : ℝ) : Polygon :=
  { p with stellate_size }

/-- `Polygon::new_rect`: a rectangle of width `w` and height `h` with
4 vertices, size `h / sqrt 2` and eccentricity `w / h`. -/
def new_rect (w h : ℝ) : Polygon :=
  (default.set_vertices 4).set_size (h / Real.sqrt 2) (w / h)

/-- `Polygon::new_circle`. -/
def new_circle (r : ℝ) : Polygon := (default.set_vertices 0).set_size r 1

/-- The body of the `for` loop in `Polygon::get_points` for index `i`: the
outer corner at angle `delta_angle * (0.5 - i)` and radius `size`, followed
(when `stellate_size != 0`) by the stellation point at angle
`delta_angle * (0.0 - i)` and radius `stellate_size`.  Each point has its X
component scaled by the eccentricity, then is rotated by the polygon's
rotation (degrees) and translated by its center. -/
def pointsAt (p : Polygon) (i : Nat) : List Point :=
  let origin := Point.zero
  let delta_angle := toRadians 360 / (p.vertices : ℝ)
  let outer :=
    let q := (Point.mk p.size 0).rotate_around origin (delta_angle * (0.5 - (i : ℝ)))
    let q := Point.mk (q.x * p.eccentricity) q.y
    q.rotate_around origin (toRadians p.rotation) + p.center
  let inner :=
    let q := (Point.mk p.stellate_size 0).rotate_around origin (delta_angle * (0.0 - (i : ℝ)))
    let q := Point.mk (q.x * p.eccentricity) q.y
    q.rotate_around origin (toRadians p.rotation) + p.center
  outer :: (if p.stellate_size ≠ 0 then [inner] else [])

/-- `Polygon::get_points`: the corners of the polygon in anticlockwise
order (the source asserts `vertices > 1` before this loop). -/
def get_points (p : Polygon) : List Point :=
  (List.range p.vertices).flatMap p.pointsAt

/-- `Polygon::as_paths`: an ellipse about `Point::zero` for 0 vertices, the
empty path for 1, and the rounded path of the corner points otherwise. -/
def as_paths (p : Polygon) : BezierPath :=
  match p.vertices with
  | 0 => BezierPath.of_ellipse Point.zero p.size p.eccentricity p.rotation
  | 1 => BezierPath.default
  | _ => BezierPath.of_points p.get_points p.rounding

/-- `impl Add<Point> for Polygon`: translate the center by `dxy`. -/
def addPt (p : Polygon) (dxy : Point) : Polygon :=
  { p with center := p.center + dxy }

/-- `impl Sub<Point> for Polygon` as written in the source: the body is
`self.center += dxy` — the same statement as in `Add`. -/
def subPt (p : Polygon) (dxy : Point) : Polygon :=
  { p with center := p.center + dxy }

end Polygon

/-! ## Colors and configuration (`src/color_database.rs`, `src/svg.rs`) -/

/-- `Rgba` (`src/color_database.rs`): a 32-bit value storing `255 - alpha`
in the top 8 bits, then R, then G, then B in the bottom 8 bits.  The `u32`
is modelled as a natural number; every constructor below produces a value
below `2^32`. -/
structure Rgba where
  val : Nat
deriving DecidableEq

namespace Rgba

/-- `Rgba::from_tuple_rgba`: `b | g << 8 | r << 16 | (255 - a) << 24` (the
`u8` fields are reduced mod 256 as in the source's types). -/
def from_tuple_rgba (r g b a : Nat) : Rgba :=
  ⟨b % 256 + g % 256 * 2 ^ 8 + r % 256 * 2 ^ 16 + (255 - a % 256) * 2 ^ 24⟩

/-- `Rgba::alpha`: `255 - ((self.0 >> 24) & 0xff)`. -/
def alpha (x : Rgba) : Nat := 255 - x.val / 2 ^ 24 % 256

/-- `Rgba::as_tuple_rgba`: `(r, g, b, alpha)`. -/
def as_tuple_rgba (x : Rgba) : Nat × Nat × Nat × Nat :=
  (x.val / 2 ^ 16 % 256, x.val / 2 ^ 8 % 256, x.val % 256, x.alpha)

/-- A lowercase hexadecimal digit. -/
def hexChar (n : Nat) : Char := "0123456789abcdef".toList.getD n '0'

/-- A byte rendered with `format!("{:02x}", v)`. -/
def hex2 (n : Nat) : String := String.mk [hexChar (n / 16 % 16), hexChar (n % 16)]

/-- `From<Rgba> for String`: `#rrggbb` when fully opaque, `rgba(r,g,b,a)`
otherwise. -/
def render (x : Rgba) : String :=
  let t := x.as_tuple_rgba
  if t.2.2.2 = 255 then
    "#" ++ hex2 t.1 ++ hex2 t.2.1 ++ hex2 t.2.2.1
  else
    "rgba(" ++ Nat.repr t.1 ++ "," ++ Nat.repr t.2.1 ++ "," ++ Nat.repr t.2.2.1 ++
      "," ++ Nat.repr t.2.2.2 ++ ")"

end Rgba

/-- `Color` (`src/color_database.rs`): a string representation (used when the
color is fully opaque) together with its RGBA value. -/
structure Color where
  /-- String representation (if transparency is 0) -/
  text : String
  /-- RGBA -/
  rgba : Rgba
deriving DecidableEq

namespace Color

/-- `Color::new`. -/
def new (text : String) (rgba : Rgba) : Color := ⟨text, rgba⟩

/-- `Color::of_rgb`: the text is the rendering of the RGBA value. -/
def of_rgb (rgba : Rgba) : Color := ⟨rgba.render, rgba⟩

/-- `Color::name_is_none`: the literal names "None"/"none"/"NONE" denote the
opaque color rendered as "none". -/
def name_is_none (name : String) : Option Color :=
  if name = "None" ∨ name = "none" ∨ name = "NONE" then
    some (new "none" (Rgba.from_tuple_rgba 0 0 0 255))
  else
    Option.none

/-- `Color::as_str`: the stored text when fully opaque, otherwise the
`rgba(...)` rendering. -/
def as_str (c : Color) : String :=
  if c.rgba.alpha = 255 then c.text else c.rgba.render

end Color

/-- `ColorDatabase` (`src/color_database.rs`): a name-to-RGB lookup table. -/
structure ColorDatabase where
  colors : List (String × Nat)

namespace ColorDatabase

/-- `ColorDatabase::canonicalize_name`: drop underscores and lowercase. -/
def canonicalize_name (name : String) : Option String :=
  some (String.mk ((name.toList.filter fun c => c ≠ '_').map Char.toLower))

/-- `ColorDatabase::find_color_exact_index`. -/
def find_color_exact_index (db : ColorDatabase) (name : String) : Option Nat :=
  db.colors.findIdx? fun p => p.1 == name

/-- `ColorDatabase::find_color_index`. -/
def find_color_index (db : ColorDatabase) (name : String) : Option Nat :=
  (canonicalize_name name).bind db.find_color_exact_index

/-- `ColorDatabase::find_color`: the "none" names short-circuit before the
table is consulted. -/
def find_color (db : ColorDatabase) (name : String) : Option Color :=
  match Color.name_is_none name with
  | some color_none => some color_none
  | Option.none =>
    (db.find_color_index name).map fun i =>
      Color.new (db.colors.getD i ("", 0)).1 ⟨(db.colors.getD i ("", 0)).2⟩

end ColorDatabase

/-- Modelled from the spec: the SVG color-name table (`src/svg_colors.rs` is
not part of the source snapshot).  Its contents are irrelevant to every
theorem below: the only name the embedded code resolves is the literal
"none", which `ColorDatabase::find_color` answers from `Color::name_is_none`
before consulting the table. -/
def SvgColorDatabase : ColorDatabase := ⟨[]⟩

/-- `SvgConfig` (`src/svg.rs`): recognized switches of the finalize pass. -/
structure SvgConfig where
  /-- if asserted then show grid at the toplevel layout -/
  show_grid : Bool
  /-- if asserted then show layout of grids -/
  show_layout : Bool
  /-- if asserted then show content rectangles -/
  show_content_rectangles : Option (ℝ × Color)

/-- `SvgConfig::default`. -/
def SvgConfig.default : SvgConfig := ⟨false, false, Option.none⟩

/-! ## SvgElement (`src/svg_element.rs`) -/

/-- A possibly namespace-prefixed attribute or element name
(`NamespaceName` in `src/svg_element.rs`). -/
structure NamespaceName where
  name : String
  ns : Option String
deriving DecidableEq

/-- `NamespaceName::local`. -/
def NamespaceName.local (name : String) : NamespaceName := ⟨name, Option.none⟩

/-- The node-kind payload: the four `SvgElementType` implementations of
`src/svg_element.rs` (`SvgSvg`, `SvgGroup`, `SvgPath`, `SvgGrid`) as a closed
variant type. -/
inductive SvgEleType where
  | svg
  | group
  | path (path : BezierPath) (closed : Bool)
  | grid (spacings : ℝ × ℝ) (bbox : BBox)

/-- An element of an SVG diagram (`src/svg_element.rs`). -/
inductive SvgElement where
  | mk (ele_type : SvgEleType) (attributes : List (NamespaceName × String))
      (transform : Transform) (contents : List SvgElement) (characters : String)
      (bbox : BBox)

namespace SvgElement

/-- Field accessor: the node-kind payload. -/
def ele_type : SvgElement → SvgEleType
  | .mk t _ _ _ _ _ => t

/-- Field accessor: the attribute list. -/
def attributes : SvgElement → List (NamespaceName × String)
  | .mk _ a _ _ _ _ => a

/-- Field accessor: the transform. -/
def transform : SvgElement → Transform
  | .mk _ _ tr _ _ _ => tr

/-- Field accessor (`SvgElement::contents`): the child elements. -/
def contents : SvgElement → List SvgElement
  | .mk _ _ _ c _ _ => c

/-- Field accessor (`SvgElement::characters`): the character content. -/
def characters : SvgElement → String
  | .mk _ _ _ _ ch _ => ch

/-- Field accessor (`SvgElement::bbox`). -/
def bbox : SvgElement → BBox
  | .mk _ _ _ _ _ b => b

/-- `SvgElement::new`: fresh element of a given type with no attributes,
identity transform, no contents, no characters and a default (none) bbox. -/
def new (t : SvgEleType) : SvgElement :=
  .mk t [] Transform.default [] "" BBox.none

/-- `SvgElement::add_attribute`. -/
def add_attribute (e : SvgElement) (name : String) (prefixNs : Option String)
    (value : String) : SvgElement :=
  .mk e.ele_type (e.attributes ++ [(⟨name, prefixNs⟩, value)]) e.transform
    e.contents e.characters e.bbox

/-- `SvgElement::push_content`. -/
def push_content (e : SvgElement) (c : SvgElement) : SvgElement :=
  .mk e.ele_type e.attributes e.transform (e.contents ++ [c]) e.characters e.bbox

end SvgElement

/-! ## The event iterator (`src/svg_event.rs`) -/

/-- An XML output event (`XmlEvent` in `src/svg_event.rs`). -/
inductive XmlEvent where
  | startDocument
  | endDocument
  | startElement (e : SvgElement)
  | endElement (e : SvgElement)
  | characters (e : SvgElement)

/-- The iterator's internal state (`IterState` in `src/svg_event.rs`). -/
inductive IterState where
  | preDocument
  | preElement
  | preString
  | preContent
  | postContent
  | findNextElement
  | documentEnd
  | completed
deriving DecidableEq

/-- The iterator over an SvgElement tree (`ElementIter` in
`src/svg_event.rs`): a state and an explicit stack of
(element, child index) pairs.  The head of the list is the top of the
stack. -/
structure ElementIter where
  state : IterState
  elements : List (SvgElement × Nat)

/-- `ElementIter::new`: iterate a tree from its root element. -/
def ElementIter.new (e : SvgElement) : ElementIter :=
  ⟨.preDocument, [(e, 0)]⟩

/-- The outcome of `ElementIter::next` when entered in the `PreElement`
state: pop the top of the stack and emit its element-open event.  The Rust
code's `self.elements.pop().unwrap()` panics on an empty stack; an empty
stack is unreachable from a fresh iterator, and the model returns the
iterator unchanged with no event there (likewise in the other helpers
below). -/
def nextPreElement (els : List (SvgElement × Nat)) : ElementIter × Option XmlEvent :=
  match els with
  | [] => (⟨.preElement, []⟩, Option.none)
  | (ele, n) :: rest => (⟨.preString, (ele, n) :: rest⟩, some (.startElement ele))

/-- The outcome of `ElementIter::next` when entered in the `PostContent`
state: emit the element-close event for the top of the stack. -/
def nextPostContent (els : List (SvgElement × Nat)) : ElementIter × Option XmlEvent :=
  match els with
  | [] => (⟨.postContent, []⟩, Option.none)
  | (ele, n) :: rest => (⟨.findNextElement, (ele, n) :: rest⟩, some (.endElement ele))

/-- The outcome of `ElementIter::next` when entered in the `DocumentEnd`
state: emit the end-of-document event and stop. -/
def nextDocumentEnd (els : List (SvgElement × Nat)) : ElementIter × Option XmlEvent :=
  (⟨.completed, els⟩, some .endDocument)

/-- The outcome of `ElementIter::next` when entered in the `PreContent`
state: push the next unvisited child and continue at `PreElement` (the
source recurses into `self.next()`, which immediately emits the child's open
event), or continue at `PostContent` when no children remain. -/
def nextPreContent (els : List (SvgElement × Nat)) : ElementIter × Option XmlEvent :=
  match els with
  | [] => (⟨.preContent, []⟩, Option.none)
  | (ele, n) :: rest =>
    if n < ele.contents.length then
      nextPreElement ((ele.contents.getD n (SvgElement.new .group), 0) :: (ele, n) :: rest)
    else
      nextPostContent ((ele, n) :: rest)

/-- The outcome of `ElementIter::next` when entered in the `PreString`
state: emit a characters event if the top element has non-empty character
content, otherwise fall through to `PreContent` without consuming a step. -/
def nextPreString (els : List (SvgElement × Nat)) : ElementIter × Option XmlEvent :=
  match els with
  | [] => (⟨.preString, []⟩, Option.none)
  | (ele, n) :: rest =>
    if ele.characters ≠ "" then
      (⟨.preContent, (ele, n) :: rest⟩, some (.characters ele))
    else
      nextPreContent ((ele, n) :: rest)

/-- The outcome of `ElementIter::next` when entered in the `FindNextElement`
state: pop the finished node; if its parent has a further child, push that
child and continue at `PreElement`, otherwise advance the parent's child
index and continue at `PostContent`; when the stack has at most one entry,
continue at `DocumentEnd`. -/
def nextFindNext (els : List (SvgElement × Nat)) : ElementIter × Option XmlEvent :=
  match els with
  | (_c, _k) :: (ele, n) :: rest =>
    if n + 1 < ele.contents.length then
      nextPreElement
        ((ele.contents.getD (n + 1) (SvgElement.new .group), 0) :: (ele, n + 1) :: rest)
    else
      nextPostContent ((ele, n + 1) :: rest)
  | els => nextDocumentEnd els

/-- `ElementIter::next` (the `Iterator` impl in `src/svg_event.rs`).  Returns
the updated iterator together with the produced event; `Option.none` means
the sequence is exhausted.  The silent `self.next()` recursions of the source
always target a state that produces an event without further recursion
(`PreString -> PreContent -> PreElement/PostContent`,
`FindNextElement -> PreElement/PostContent/DocumentEnd`), so they are inlined
here as calls to the per-state helper functions above. -/
def ElementIter.next (it : ElementIter) : ElementIter × Option XmlEvent :=
  match it.state with
  | .preDocument => (⟨.preElement, it.elements⟩, some .startDocument)
  | .preElement => nextPreElement it.elements
  | .preString => nextPreString it.elements
  | .preContent => nextPreContent it.elements
  | .postContent => nextPostContent it.elements
  | .findNextElement => nextFindNext it.elements
  | .documentEnd => nextDocumentEnd it.elements
  | .completed => (⟨.completed, it.elements⟩, Option.none)

/-- Run the iterator for at most `fuel` calls to `next`, collecting the
produced events and stopping as soon as `next` produces none. -/
def runFuel : Nat → ElementIter → List XmlEvent × ElementIter
  | 0, it => ([], it)
  | fuel + 1, it =>
    match it.next with
    | (it', some ev) =>
      let r := runFuel fuel it'
      (ev :: r.1, r.2)
    | (it', Option.none) => ([], it')

/-- Iterate `next` (discarding events) `k` times. -/
def iterN : Nat → ElementIter → ElementIter
  | 0, it => it
  | k + 1, it => iterN k (it.next).1

mutual

/-- The canonical event list of one element: open tag, characters (when
non-empty), the events of the children in order, close tag. -/
def elemEvents : SvgElement → List XmlEvent
  | .mk t a tr cts ch bb =>
    .startElement (.mk t a tr cts ch bb) ::
      ((if ch ≠ "" then [.characters (.mk t a tr cts ch bb)] else []) ++
        elemEventsL cts ++ [.endElement (.mk t a tr cts ch bb)])

/-- The canonical event lists of a list of sibling elements, concatenated. -/
def elemEventsL : List SvgElement → List XmlEvent
  | [] => []
  | c :: cs => elemEvents c ++ elemEventsL cs

end

/-- The canonical event list of a whole document rooted at `e`. -/
def docEvents (e : SvgElement) : List XmlEvent :=
  .startDocument :: (elemEvents e ++ [.endDocument])

mutual

/-- The number of nodes of an element tree. -/
def sizeE : SvgElement → Nat
  | .mk _ _ _ cts _ _ => 1 + sizeL cts

/-- The total number of nodes of a list of element trees. -/
def sizeL : List SvgElement → Nat
  | [] => 0
  | c :: cs => sizeE c + sizeL cs

end

mutual

/-- The number of nodes of an element tree whose character content is
non-empty. -/
def charCount : SvgElement → Nat
  | .mk _ _ _ cts ch _ => (if ch ≠ "" then 1 else 0) + charCountL cts

/-- The total character-content count of a list of element trees. -/
def charCountL : List SvgElement → Nat
  | [] => 0
  | c :: cs => charCount c + charCountL cs

end

/-- Count the events of a list selected by a Boolean predicate. -/
def countEv (p : XmlEvent → Bool) (l : List XmlEvent) : Nat :=
  (l.filter p).length

/-- Selector: start-of-document events. -/
def isStartDoc : XmlEvent → Bool
  | .startDocument => true
  | _ => false

/-- Selector: end-of-document events. -/
def isEndDoc : XmlEvent → Bool
  | .endDocument => true
  | _ => false

/-- Selector: element-open events. -/
def isStartEle : XmlEvent → Bool
  | .startElement _ => true
  | _ => false

/-- Selector: element-close events. -/
def isEndEle : XmlEvent → Bool
  | .endElement _ => true
  | _ => false

/-- Selector: character events. -/
def isCharacters : XmlEvent → Bool
  | .characters _ => true
  | _ => false

/-! ## The finalize pass (`src/svg_element.rs`, `src/svg.rs`) -/

/-- `BBox::of_points`: the bounding box of a list of points. -/
def BBox.of_points (pts : List Point) : BBox :=
  pts.foldl BBox.include' BBox.none

/-- `BBox::add_as_points` (without the closing repeat): the four
anticlockwise-ordered corners of the box starting at the minimum corner. -/
def BBox.corners (b : BBox) : List Point :=
  [⟨b.x.min, b.y.min⟩, ⟨b.x.max, b.y.min⟩, ⟨b.x.max, b.y.max⟩, ⟨b.x.min, b.y.max⟩]

/-- Modelled from the spec: `BBox::transform` (called by
`SvgElement::finalize` but not part of the `bbox.rs` snapshot) — "transform
the node's bounding box into the parent's coordinate space by applying its
own Transform", i.e. the axis-aligned bounding box of the four transformed
corners; a none box stays none. -/
def BBox.transformBy (b : BBox) (t : Transform) : BBox :=
  if b.is_none then b else BBox.of_points (b.corners.map t.apply)

/-- Modelled from the spec: `Bezier::as_points(straightness)` of the external
`bezier-nd` crate samples points along the curve; for a straight line these
are its two endpoints.  No theorem of this development evaluates the sampling
of an arc, which is left as the empty list. -/
def Bezier.as_points (_straightness : ℝ) : Bezier → List Point
  | .line p0 p1 => [p0, p1]
  | .corner p0 p1 _ => [p0, p1]
  | .arc _ _ _ _ _ _ => []

/-- `pt_as_str` (`src/svg_element.rs`): "x,y" with 4-decimal rendering. -/
def pt_as_str (p : Point) : String :=
  Transform.fmt4 p.x ++ "," ++ Transform.fmt4 p.y

/-- The path-data string of `SvgPath::push_attributes`: a move to the start
point, then one `L`/`Q`/`C` command per Bezier, then `z` when closed.  The
control points of the external crate's curved segments are not modelled; only
their endpoints appear. -/
def pathDString (bp : BezierPath) (closed : Bool) : String :=
  "M " ++ pt_as_str (bp.get_pt 0) ++
    String.join (bp.elements.map fun b =>
      match b with
      | .line _ _ => " L " ++ pt_as_str (b.borrow_pt 1)
      | _ => " C " ++ pt_as_str (b.borrow_pt 1)) ++
    (if closed then " z" else "")

/-- The integers from `lo` to `hi` inclusive (`lo..=hi` in Rust). -/
def intRange (lo hi : ℤ) : List ℤ :=
  (List.range (hi + 1 - lo).toNat).map fun k => lo + k

/-- The grid-data string of `SvgGrid::push_attributes`: vertical lines at
integer multiples of the X spacing when at least two fit, and horizontal
lines likewise. -/
def gridDString (spacings : ℝ × ℝ) (bb : BBox) : String :=
  let xmin := ⌊bb.x.min / spacings.1 + 0⌋
  let xmax := ⌊bb.x.max / spacings.1 + 1⌋
  let ymin := ⌊bb.y.min / spacings.2 + 0⌋
  let ymax := ⌊bb.y.max / spacings.2 + 1⌋
  (if xmax - xmin ≥ 2 then
    String.join ((intRange xmin xmax).map fun i =>
      "M " ++ Transform.fmt4 ((i : ℝ) * spacings.1) ++ "," ++ Transform.fmt4 bb.y.min ++
        " v " ++ Transform.fmt4 (bb.y.max - bb.y.min) ++ " ")
  else "") ++
  (if ymax - ymin ≥ 2 then
    String.join ((intRange ymin ymax).map fun i =>
      "M " ++ Transform.fmt4 bb.x.min ++ "," ++ Transform.fmt4 ((i : ℝ) * spacings.2) ++
        " h " ++ Transform.fmt4 (bb.x.max - bb.x.min) ++ " ")
  else "")

/-- The `SvgElementType::bbox` hook: none for `svg`/`group`, the bounding box
of the sampled curve points for a path, the configured extent for a grid. -/
def SvgEleType.bboxHook : SvgEleType → BBox
  | .svg => BBox.none
  | .group => BBox.none
  | .path bp _ =>
    bp.elements.foldl (fun bb b => (b.as_points 0.1).foldl BBox.include' bb) BBox.none
  | .grid _ bbox => bbox

/-- The `SvgElementType::push_attributes` hook: appends the `d` attribute for
paths and grids, nothing for `svg`/`group`. -/
def SvgEleType.pushAttrs : SvgEleType → List (NamespaceName × String) → List (NamespaceName × String)
  | .svg, attrs => attrs
  | .group, attrs => attrs
  | .path bp closed, attrs => attrs ++ [(NamespaceName.local "d", pathDString bp closed)]
  | .grid spacings bb, attrs => attrs ++ [(NamespaceName.local "d", gridDString spacings bb)]

/-- Apply the element's own type hook to its attribute list
(`self.ele_type.push_attributes(&mut self.attributes)`). -/
def SvgElement.push_type_attributes (e : SvgElement) : SvgElement :=
  .mk e.ele_type (e.ele_type.pushAttrs e.attributes) e.transform e.contents
    e.characters e.bbox

/-- `SvgPath::new_path`. -/
def SvgPath.new_path (bp : BezierPath) (closed : Bool) : SvgElement :=
  SvgElement.new (.path bp closed)

/-- `SvgPath::new_polygon`. -/
def SvgPath.new_polygon (p : Polygon) (closed : Bool) : SvgElement :=
  SvgPath.new_path p.as_paths closed

/-- `SvgPath::new_box`: a closed rectangle path covering a bounding box. -/
def SvgPath.new_box (bbox : BBox) : SvgElement :=
  let c := bbox.get_cwh.1
  let w := bbox.get_cwh.2.1
  let h := bbox.get_cwh.2.2
  let rect := (Polygon.new_rect w h).addPt c
  SvgPath.new_polygon rect true

/-- `SvgElement::add_color` instantiated at a string color name (the
`(&str, &ColorDatabase)` conversion): resolve the name in the SVG color
database and attach the rendered color string.  The source's
`unwrap_or_else(|| panic!(..))` on an unknown name is modelled by an inert
default; every name the embedded code passes ("none") is found. -/
def SvgElement.add_color_name (e : SvgElement) (attr_name s : String) : SvgElement :=
  let color := (SvgColorDatabase.find_color s).getD (Color.new "" ⟨0⟩)
  e.add_attribute attr_name Option.none color.as_str

/-- `SvgElement::add_color` instantiated at a `&Color` (the
`(&Color, &ColorDatabase)` conversion clones the color unchanged). -/
def SvgElement.add_color_value (e : SvgElement) (attr_name : String) (c : Color) : SvgElement :=
  e.add_attribute attr_name Option.none c.as_str

/-- `SvgElement::new_box`: the box path with fill "none", the given stroke
color and stroke width. -/
def SvgElement.new_box (bbox : BBox) (line_width : ℝ) (color : Color) : SvgElement :=
  ((SvgPath.new_box bbox).add_color_name "fill" "none"
    |>.add_color_value "stroke" color)
    |>.add_attribute "stroke-width" Option.none (Transform.fmt4 line_width)

mutual

/-- `SvgElement::finalize` (`src/svg_element.rs`): finalize every child
(collecting their extra siblings and the union of their finalized boxes),
append the children's extra nodes to this node's child list, take the union
with this node's own type hook box, synthesize an outline box node when the
configuration asks for content rectangles (returned to the caller, not made a
child), transform the box into the parent's coordinates, bake the transform
attribute, and push the type-specific attributes. -/
def finalizeE (cfg : SvgConfig) : SvgElement → SvgElement × List SvgElement
  | .mk t attrs tr cts ch _bb =>
    let transformStr := tr.as_svg_attribute_string
    let fc := finalizeL cfg cts
    let childExtra := (fc.map Prod.snd).flatten
    let bbox1 := (fc.foldl (fun b c => b.union c.1.bbox) BBox.none).union t.bboxHook
    let contents1 := fc.map Prod.fst ++ childExtra
    let extra : List SvgElement :=
      match cfg.show_content_rectangles with
      | some (width, color) =>
        let eb := SvgElement.new_box bbox1 width color
        let eb :=
          if transformStr ≠ "" then eb.add_attribute "transform" Option.none transformStr
          else eb
        [eb.push_type_attributes]
      | Option.none => []
    let bbox2 := bbox1.transformBy tr
    let attrs1 :=
      if transformStr ≠ "" then attrs ++ [(NamespaceName.local "transform", transformStr)]
      else attrs
    ((SvgElement.mk t attrs1 tr contents1 ch bbox2).push_type_attributes, extra)

/-- The `for c in self.contents.iter_mut()` loop of `SvgElement::finalize`:
finalize each child in order. -/
def finalizeL (cfg : SvgConfig) : List SvgElement → List (SvgElement × List SvgElement)
  | [] => []
  | c :: cs => finalizeE cfg c :: finalizeL cfg cs

end

/-- The bounding box `SvgElement::finalize` computes for a node in the node's
own coordinate space (the union of the finalized children's boxes and the
node's own type hook box); the synthesized outline node covers exactly this
box. -/
def contentBBox (cfg : SvgConfig) (e : SvgElement) : BBox :=
  ((finalizeL cfg e.contents).foldl (fun b c => b.union c.1.bbox) BBox.none).union
    e.ele_type.bboxHook

/-- The outline node `SvgElement::finalize` synthesizes for a node when
`show_content_rectangles` is `Some((width, color))`: a box path covering the
node's content bounding box, carrying the node's (still-local) transform
string when non-empty. -/
def outlineNode (cfg : SvgConfig) (width : ℝ) (color : Color) (e : SvgElement) : SvgElement :=
  let transformStr := e.transform.as_svg_attribute_string
  let eb := SvgElement.new_box (contentBBox cfg e) width color
  let eb :=
    if transformStr ≠ "" then eb.add_attribute "transform" Option.none transformStr
    else eb
  eb.push_type_attributes

/-- The `Svg` diagram object (`src/svg.rs`): configuration, bounding box,
top-level contents, definitions, and the construction stack. -/
structure Svg where
  config : SvgConfig
  bbox : BBox
  contents : List SvgElement
  definitions : List SvgElement
  stack : List SvgElement

/-- `Svg::new`. -/
def Svg.new (config : SvgConfig) : Svg := ⟨config, BBox.none, [], [], []⟩

/-- `Svg::finalize` (`src/svg.rs`): asserts that the construction stack is
empty (modelled as `Option.none` for the panic), finalizes every top-level
element, records the union of their boxes, and appends the elements' extra
nodes to the top-level contents. -/
def Svg.finalize (s : Svg) : Option Svg :=
  if s.stack ≠ [] then Option.none
  else
    let fc := finalizeL s.config s.contents
    let childExtra := (fc.map Prod.snd).flatten
    let bbox := fc.foldl (fun b c => b.union c.1.bbox) BBox.none
    some ⟨s.config, bbox, fc.map Prod.fst ++ childExtra, s.definitions, s.stack⟩

/-! ## Statement-side definitions -/

/-- The X-eccentricity scaling step of `Polygon::get_points`
(`p[0] *= self.eccentricity`). -/
def eccScaleX (ecc : ℝ) (p : Point) : Point := ⟨p.x * ecc, p.y⟩

/-- The bottom row of a 9-element matrix is `(0, 0, 1)` (read in the order
checked by `Transform::of_matrix`). -/
def matBottomRowOk (m : List ℝ) : Prop :=
  m.getD 8 0 = 1 ∧ m.getD 7 0 = 0 ∧ m.getD 6 0 = 0

/-- The skew measure `m[0]*m[1] + m[4]*m[3]` of `Transform::of_matrix`. -/
def matSkew (m : List ℝ) : ℝ :=
  m.getD 0 0 * m.getD 1 0 + m.getD 4 0 * m.getD 3 0

/-- The determinant `m[0]*m[4] - m[1]*m[3]` of `Transform::of_matrix`. -/
def matDet (m : List ℝ) : ℝ :=
  m.getD 0 0 * m.getD 4 0 - m.getD 1 0 * m.getD 3 0

/-- Follows the spec's words (claim C4): the exact class of matrices the
spec says `Transform::of_matrix` must reject — not 9 elements, bottom row not
`(0,0,1)`, skew magnitude above `1e-6`, or determinant below `-1e-9`. -/
def specRejectsMatrix (m : List ℝ) : Prop :=
  m.length ≠ 9 ∨ ¬ matBottomRowOk m ∨ |matSkew m| > 1e-6 ∨ matDet m < -1e-9

/-- The closed unit-square path of four line segments through
`(0,0), (1,0), (1,1), (0,1)`. -/
def sqPath : BezierPath :=
  ⟨[.line ⟨0, 0⟩ ⟨1, 0⟩, .line ⟨1, 0⟩ ⟨1, 1⟩,
    .line ⟨1, 1⟩ ⟨0, 1⟩, .line ⟨0, 1⟩ ⟨0, 0⟩]⟩

/-- The behaviour of one `ElementIter` pass over the subtree rooted at `e`:
from the `PreElement` state with `(e, 0)` on top of the stack, given fuel for
the subtree's events plus `fuel` more calls, the iterator emits exactly
`elemEvents e` and continues in the `FindNextElement` state with the child
index at `e`'s top of stack advanced to the number of children. -/
def EProp (e : SvgElement) : Prop :=
  ∀ (rest : List (SvgElement × Nat)) (fuel : Nat),
    runFuel ((elemEvents e).length + fuel) ⟨.preElement, (e, 0) :: rest⟩ =
      ((elemEvents e) ++
          (runFuel fuel ⟨.findNextElement, (e, e.contents.length) :: rest⟩).1,
        (runFuel fuel ⟨.findNextElement, (e, e.contents.length) :: rest⟩).2)

/-- Concrete 3x3 identity matrix (witness input). -/
def identity9 : List ℝ := [1, 0, 0, 0, 1, 0, 0, 0, 1]

/-- Concrete polygon with 2 vertices and no stellation (witness input). -/
def cpoly : Polygon := ⟨Point.zero, 2, 1, 0, 1, 0, 0⟩

/-- Concrete ellipse polygon centered at the origin (witness input). -/
def epolyA : Polygon := ⟨Point.zero, 0, 1, 0, 1, 0, 0⟩

/-- Concrete ellipse polygon centered at `(5, 7)` (witness input). -/
def epolyB : Polygon := ⟨⟨5, 7⟩, 0, 1, 0, 1, 0, 0⟩

/-- Concrete leaf element with character content (witness input). -/
def cleafChars : SvgElement :=
  .mk .group [] Transform.default [] "txt" BBox.none

/-- Concrete two-node element tree (witness input). -/
def ctree : SvgElement :=
  .mk .group [] Transform.default [cleafChars] "" BBox.none

/-- Concrete color (witness input): opaque pure green. -/
def ccolor : Color := Color.of_rgb ⟨65280⟩

/-- Concrete configuration with content rectangles enabled (witness input). -/
def ccfg : SvgConfig := ⟨false, false, some (1, ccolor)⟩

/-- Concrete childless group element (witness input). -/
def cleaf : SvgElement := .mk .group [] Transform.default [] "" BBox.none

end

/-! ## Theorems -/

/-- Components of a sum of points. -/
@[simp]
theorem Point.add_def (p q : Point) : p + q = ⟨p.x + q.x, p.y + q.y⟩ := rfl

/-- Components of a difference of points. -/
@[simp]
theorem Point.sub_def (p q : Point) : p - q = ⟨p.x - q.x, p.y - q.y⟩ := rfl

/-- Components of a negated point. -/
@[simp]
theorem Point.neg_def (p : Point) : -p = ⟨-p.x, -p.y⟩ := rfl

/-- Components of a scaled point. -/
@[simp]
theorem Point.smul_def (k : ℝ) (p : Point) : k • p = ⟨k * p.x, k * p.y⟩ := rfl

/-- The norm of a point on the X axis. -/
theorem Point.norm_xaxis (a : ℝ) : Point.norm ⟨a, 0⟩ = |a| := by
  simp [Point.norm, Real.sqrt_sq_eq_abs]

/-- The norm of a point on the Y axis. -/
theorem Point.norm_yaxis (a : ℝ) : Point.norm ⟨0, a⟩ = |a| := by
  simp [Point.norm, Real.sqrt_sq_eq_abs]

/-- Claim C10: for every Polygon `p` and Point `d`, `p - d` equals `p + d`:
the `Sub<Point>` operator's body adds `d` to the polygon's center exactly as
`Add<Point>` does, so subtracting a point never translates the polygon in the
opposite direction. -/
theorem C10_polygon_sub_eq_add (p : Polygon) (d : Point) : p.subPt d = p.addPt d := rfl

/-- Claim C9: a Polygon with `vertex_count == 0` generates its ellipse about
`Point::zero`, so the generated paths are independent of the polygon's
`center` field: two such polygons differing only in center produce identical
paths, and translating the center never moves the generated ellipse. -/
theorem C9_ellipse_ignores_center (p q : Polygon)
    (hp : p.vertices = 0) (hq : q.vertices = 0)
    (hs : p.size = q.size) (he : p.eccentricity = q.eccentricity)
    (hr : p.rotation = q.rotation) :
    p.as_paths = q.as_paths ∧ ∀ d : Point, (p.addPt d).as_paths = p.as_paths := by
  obtain ⟨pc, pv, ps, pst, pe, pr, prd⟩ := p
  obtain ⟨qc, qv, qs, qst, qe, qr, qrd⟩ := q
  simp only at hp hq hs he hr
  subst hp hq hs he hr
  constructor
  · rfl
  · intro d
    rfl

/-- Claim C8: for every box `b` and value `v`, `b.enlarge(v).reduce(v) = b`.
This holds (for non-empty boxes as claimed, and indeed for all boxes) because
both `BBox::enlarge` and `BBox::reduce` drop the ranges returned by the
by-value `Range::enlarge` calls in their bodies and return the box
unchanged. -/
theorem C8_enlarge_reduce_inverse (b : BBox) (v : ℝ) (_h : ¬ b.is_none) :
    (b.enlarge v).reduce v = b := rfl

/-- Witness for C8 at a concrete non-empty box. -/
theorem C8_enlarge_reduce_inverse_witness :
    ¬ (BBox.new 0 0 1 1).is_none ∧
      ((BBox.new 0 0 1 1).enlarge 2).reduce 2 = BBox.new 0 0 1 1 := by
  have h : ¬ (BBox.new 0 0 1 1).is_none := by
    norm_num [BBox.new, BBox.is_none, Range.is_none, Range.new]
  exact ⟨h, C8_enlarge_reduce_inverse (BBox.new 0 0 1 1) 2 h⟩

/-- Claim C7 (evaluation): `Range::intersect` with an empty operand is *not*
absorbing in the source — both `intersect(empty, a)` and `intersect(a, empty)`
return `a`'s bounds (the empty operand is treated as neutral, exactly as in
`Range::union`), while on `BBox` intersecting with a none box does yield a
none box. -/
theorem C7_range_intersect_empty_neutral :
    Range.none.intersect (Range.new 0 4) = Range.new 0 4 ∧
      (Range.new 0 4).intersect Range.none = Range.new 0 4 ∧
      ¬ (Range.none.intersect (Range.new 0 4)).is_none ∧
      ∀ b : BBox, (BBox.none.intersect b).is_none ∧ (b.intersect BBox.none).is_none := by
  have hEmpty : Range.none.is_none := by
    norm_num [Range.none, Range.is_none]
  have hNotEmpty : ¬ (Range.new 0 4).is_none := by
    norm_num [Range.new, Range.is_none]
  have h1 : Range.none.intersect (Range.new 0 4) = Range.new 0 4 := by
    simp only [Range.intersect]
    rw [if_neg hNotEmpty, if_pos hEmpty]
  have hBoxEmpty : BBox.none.is_none := by
    exact Or.inl hEmpty
  refine ⟨h1, ?_, ?_, ?_⟩
  · simp only [Range.intersect]
    rw [if_pos hEmpty]
  · rw [h1]
    exact hNotEmpty
  · intro b
    constructor
    · by_cases hb : b.is_none
      · simp only [BBox.intersect]
        rw [if_pos hb]
        exact hb
      · simp only [BBox.intersect]
        rw [if_neg hb, if_pos hBoxEmpty]
        exact hBoxEmpty
    · simp only [BBox.intersect]
      rw [if_pos hBoxEmpty]
      exact hBoxEmpty

/-- The length of a flatMap over `range n` whose blocks all have length `k`. -/
theorem length_flatMap_range_const {α : Type} (f : Nat → List α) (k : Nat)
    (hk : ∀ m, (f m).length = k) (n : Nat) :
    ((List.range n).flatMap f).length = k * n := by
  induction n with
  | zero => simp
  | succ n ih =>
    rw [List.range_succ, List.flatMap_append, List.length_append, ih]
    simp [hk n, Nat.mul_succ]

/-- Indexing into a flatMap over `range n` whose blocks all have length `k`:
position `k*i + j` of the result is position `j` of block `i`. -/
theorem getElem?_flatMap_range_const {α : Type} (f : Nat → List α) (k : Nat)
    (hk : ∀ m, (f m).length = k) (n i j : Nat) (hi : i < n) (hj : j < k) :
    ((List.range n).flatMap f)[k * i + j]? = (f i)[j]? := by
  induction n with
  | zero => omega
  | succ n ih =>
    rw [List.range_succ, List.flatMap_append]
    rcases Nat.lt_or_ge i n with hin | hin
    · rw [List.getElem?_append_left]
      · exact ih hin
      · rw [length_flatMap_range_const f k hk n]
        calc k * i + j < k * i + k := by omega
          _ = k * (i + 1) := by ring
          _ ≤ k * n := Nat.mul_le_mul_left k hin
    · have hieq : i = n := by omega
      subst hieq
      rw [List.getElem?_append_right]
      · rw [length_flatMap_range_const f k hk i]
        simp [Nat.add_sub_cancel_left]
      · rw [length_flatMap_range_const f k hk i]
        omega

/-- Claim C6: for a polygon with `vertex_count >= 2`, outer corner `i` sits at
the point obtained by rotating `(size, 0)` about the origin by
`delta*(0.5 - i)` radians (`delta = 2π/n`), scaling the X component by the
eccentricity, rotating by `rotation` degrees and adding the center; when the
stellation size is non-zero one extra point at angle `delta*(0.0 - i)` and
radius `stellate_size` (same eccentricity scaling, rotation and translation)
follows each outer corner, doubling the corner count. -/
theorem C6_polygon_corners (p : Polygon) (_h2 : 2 ≤ p.vertices) :
    (p.get_points.length = if p.stellate_size ≠ 0 then 2 * p.vertices else p.vertices)
    ∧ (∀ i, i < p.vertices →
        p.get_points[if p.stellate_size ≠ 0 then 2 * i else i]? =
          some ((eccScaleX p.eccentricity
              ((Point.mk p.size 0).rotate_around Point.zero
                (toRadians 360 / (p.vertices : ℝ) * (0.5 - (i : ℝ))))).rotate_around
              Point.zero (toRadians p.rotation) + p.center))
    ∧ (p.stellate_size ≠ 0 → ∀ i, i < p.vertices →
        p.get_points[2 * i + 1]? =
          some ((eccScaleX p.eccentricity
              ((Point.mk p.stellate_size 0).rotate_around Point.zero
                (toRadians 360 / (p.vertices : ℝ) * (0.0 - (i : ℝ))))).rotate_around
              Point.zero (toRadians p.rotation) + p.center)) := by
  by_cases hst : p.stellate_size ≠ 0
  · have hk : ∀ m, (p.pointsAt m).length = 2 := by
      intro m
      simp [Polygon.pointsAt, hst]
    refine ⟨?_, ?_, ?_⟩
    · simp only [Polygon.get_points]
      rw [if_pos hst]
      exact length_flatMap_range_const p.pointsAt 2 hk p.vertices
    · intro i hi
      have := getElem?_flatMap_range_const p.pointsAt 2 hk p.vertices i 0 hi (by omega)
      simp only [Polygon.get_points] at this ⊢
      rw [if_pos hst]
      rw [Nat.add_zero] at this
      rw [this]
      simp [Polygon.pointsAt, hst, eccScaleX]
    · intro _ i hi
      have := getElem?_flatMap_range_const p.pointsAt 2 hk p.vertices i 1 hi (by omega)
      simp only [Polygon.get_points] at this ⊢
      rw [this]
      simp [Polygon.pointsAt, hst, eccScaleX]
  · have hk : ∀ m, (p.pointsAt m).length = 1 := by
      intro m
      simp [Polygon.pointsAt, hst]
    refine ⟨?_, ?_, ?_⟩
    · simp only [Polygon.get_points]
      rw [if_neg hst, length_flatMap_range_const p.pointsAt 1 hk p.vertices]
      omega
    · intro i hi
      have := getElem?_flatMap_range_const p.pointsAt 1 hk p.vertices i 0 hi (by omega)
      simp only [Polygon.get_points] at this ⊢
      rw [if_neg hst]
      rw [Nat.add_zero, Nat.one_mul] at this
      rw [this]
      simp [Polygon.pointsAt, hst, eccScaleX]
    · intro hst2
      exact absurd hst2 hst

/-- Claim C4: `Transform::of_matrix(m)` returns the typed
invalid-transform-matrix error (carrying a reason string) if and only if `m`
is not a 9-element matrix, its bottom row is not exactly `(0,0,1)`, the skew
measure `m[0]*m[1] + m[4]*m[3]` has magnitude above `1e-6`, or the
determinant `m[0]*m[4] - m[1]*m[3]` is below `-1e-9`; in every other case it
returns `Ok`, with a determinant in `[-1e-9, 0)` clamped to scale zero. -/
theorem C4_of_matrix_error_iff (m : List ℝ) :
    ((∃ r, Transform.of_matrix m = .error (.invalidTransformationMatrix r)) ↔
      specRejectsMatrix m)
    ∧ (¬ specRejectsMatrix m →
        ∃ t, Transform.of_matrix m = .ok t ∧ (matDet m < 0 → t.scale = 0)) := by
  by_cases h1 : m.length ≠ 9
  · have he : Transform.of_matrix m =
        .error (.invalidTransformationMatrix "matrix was not 3-by-3") := by
      simp only [Transform.of_matrix]
      rw [if_pos h1]
    refine ⟨⟨fun _ => Or.inl h1, fun _ => ⟨_, he⟩⟩, fun hn => absurd (Or.inl h1) hn⟩
  · by_cases h2 : ¬(m.getD 8 0 = 1 ∧ m.getD 7 0 = 0 ∧ m.getD 6 0 = 0)
    · have he : Transform.of_matrix m =
          .error (.invalidTransformationMatrix "bottom row must be 0, 0, 1") := by
        simp only [Transform.of_matrix]
        rw [if_neg h1, if_pos h2]
      refine ⟨⟨fun _ => Or.inr (Or.inl h2), fun _ => ⟨_, he⟩⟩,
        fun hn => absurd (Or.inr (Or.inl h2)) hn⟩
    · by_cases h3 : |m.getD 0 0 * m.getD 1 0 + m.getD 4 0 * m.getD 3 0| > 1e-6
      · have he : Transform.of_matrix m =
            .error (.invalidTransformationMatrix
              "rotation portion (top left 4 values) represent a skew not a rotation") := by
          simp only [Transform.of_matrix]
          rw [if_neg h1, if_neg h2, if_pos h3]
        refine ⟨⟨fun _ => Or.inr (Or.inr (Or.inl h3)), fun _ => ⟨_, he⟩⟩,
          fun hn => absurd (Or.inr (Or.inr (Or.inl h3))) hn⟩
      · by_cases h4 : m.getD 0 0 * m.getD 4 0 - m.getD 1 0 * m.getD 3 0 < -1e-9
        · have he : Transform.of_matrix m =
              .error (.invalidTransformationMatrix
                "determinant (scale squared) is negative") := by
            simp only [Transform.of_matrix]
            rw [if_neg h1, if_neg h2, if_neg h3, if_pos h4]
          refine ⟨⟨fun _ => Or.inr (Or.inr (Or.inr h4)), fun _ => ⟨_, he⟩⟩,
            fun hn => absurd (Or.inr (Or.inr (Or.inr h4))) hn⟩
        · have hok : Transform.of_matrix m =
              .ok (Transform.of_trs ⟨m.getD 2 0, m.getD 5 0⟩
                (toDegrees (atan2 (m.getD 3 0) (m.getD 4 0)))
                (if m.getD 0 0 * m.getD 4 0 - m.getD 1 0 * m.getD 3 0 < 0 then 0
                 else Real.sqrt (m.getD 0 0 * m.getD 4 0 - m.getD 1 0 * m.getD 3 0))) := by
            simp only [Transform.of_matrix]
            rw [if_neg h1, if_neg h2, if_neg h3, if_neg h4]
          constructor
          · constructor
            · intro hr
              rw [hok] at hr
              exact absurd hr.choose_spec (by simp)
            · intro hd
              rcases hd with hd | hd | hd | hd
              · exact absurd hd h1
              · exact absurd hd h2
              · exact absurd hd h3
              · exact absurd hd h4
          · intro _
            refine ⟨_, hok, fun hdet => ?_⟩
            simp only [matDet] at hdet
            simp only [Transform.of_trs]
            rw [if_pos hdet]

/-- Witness for C4: the empty list is rejected, and the identity matrix is
accepted (its determinant is 1, so no clamping occurs). -/
theorem C4_of_matrix_error_iff_witness :
    (∃ r, Transform.of_matrix ([] : List ℝ) = .error (.invalidTransformationMatrix r))
    ∧ ¬ specRejectsMatrix identity9
    ∧ ∃ t, Transform.of_matrix identity9 = .ok t ∧ (matDet identity9 < 0 → t.scale = 0) := by
  have hrej : specRejectsMatrix ([] : List ℝ) := Or.inl (by simp)
  have hacc : ¬ specRejectsMatrix identity9 := by
    intro hd
    rcases hd with hd | hd | hd | hd
    · exact hd (by norm_num [identity9])
    · exact hd (by norm_num [identity9, matBottomRowOk, List.getD])
    · rw [show matSkew identity9 = 0 by norm_num [matSkew, identity9]] at hd
      norm_num at hd
    · rw [show matDet identity9 = 1 by norm_num [matDet, identity9]] at hd
      norm_num at hd
  exact ⟨(C4_of_matrix_error_iff ([] : List ℝ)).1.mpr hrej, hacc,
    (C4_of_matrix_error_iff identity9).2 hacc⟩

/-- Claim C3: for every transform whose rotation lies in `(-180, 180]`
degrees and whose scale is positive, `of_matrix(to_matrix(t))` succeeds and
returns a transform whose translation components, rotation and scale each
equal those of `t` to within `1e-6` (in fact exactly, in real arithmetic). -/
theorem C3_of_matrix_to_matrix_roundtrip (t : Transform)
    (hr1 : -180 < t.rotation) (hr2 : t.rotation ≤ 180) (hs : 0 < t.scale) :
    ∃ t', Transform.of_matrix t.to_matrix = .ok t' ∧
      |t'.translation.x - t.translation.x| ≤ 1e-6 ∧
      |t'.translation.y - t.translation.y| ≤ 1e-6 ∧
      |t'.rotation - t.rotation| ≤ 1e-6 ∧
      |t'.scale - t.scale| ≤ 1e-6 := by
  set θ := toRadians t.rotation with hθdef
  have hpi : (0 : ℝ) < Real.pi := Real.pi_pos
  have hθ1 : -Real.pi < θ := by
    rw [hθdef]
    unfold toRadians
    have h180 : (0 : ℝ) < Real.pi / 180 := by positivity
    calc -Real.pi = -180 * (Real.pi / 180) := by ring
      _ < t.rotation * (Real.pi / 180) := by
          exact mul_lt_mul_of_pos_right hr1 h180
  have hθ2 : θ ≤ Real.pi := by
    rw [hθdef]
    unfold toRadians
    have h180 : (0 : ℝ) < Real.pi / 180 := by positivity
    calc t.rotation * (Real.pi / 180) ≤ 180 * (Real.pi / 180) :=
          mul_le_mul_of_nonneg_right hr2 h180.le
      _ = Real.pi := by field_simp
  have hs2 : Real.sin θ ^ 2 + Real.cos θ ^ 2 = 1 := Real.sin_sq_add_cos_sq θ
  -- the matrix entries
  have hmat : t.to_matrix =
      [t.scale * Real.cos θ, -t.scale * Real.sin θ, t.translation.x,
        t.scale * Real.sin θ, t.scale * Real.cos θ, t.translation.y, 0, 0, 1] := by
    simp only [Transform.to_matrix, hθdef]
  have hlen : ¬ (t.to_matrix.length ≠ 9) := by rw [hmat]; simp
  have hbot : ¬ ¬ (t.to_matrix.getD 8 0 = 1 ∧ t.to_matrix.getD 7 0 = 0 ∧
      t.to_matrix.getD 6 0 = 0) := by
    rw [hmat]
    norm_num [List.getD]
  have hskewv : t.to_matrix.getD 0 0 * t.to_matrix.getD 1 0 +
      t.to_matrix.getD 4 0 * t.to_matrix.getD 3 0 = 0 := by
    rw [hmat]
    norm_num [List.getD]
  have hdetv : t.to_matrix.getD 0 0 * t.to_matrix.getD 4 0 -
      t.to_matrix.getD 1 0 * t.to_matrix.getD 3 0 = t.scale ^ 2 := by
    rw [hmat]
    norm_num [List.getD]
    nlinarith [hs2]
  have hskew : ¬ (|t.to_matrix.getD 0 0 * t.to_matrix.getD 1 0 +
      t.to_matrix.getD 4 0 * t.to_matrix.getD 3 0| > 1e-6) := by
    rw [hskewv]
    norm_num
  have hdet9 : ¬ (t.to_matrix.getD 0 0 * t.to_matrix.getD 4 0 -
      t.to_matrix.getD 1 0 * t.to_matrix.getD 3 0 < -1e-9) := by
    rw [hdetv]
    nlinarith [sq_nonneg t.scale]
  have hdet0 : ¬ (t.to_matrix.getD 0 0 * t.to_matrix.getD 4 0 -
      t.to_matrix.getD 1 0 * t.to_matrix.getD 3 0 < 0) := by
    rw [hdetv]
    nlinarith [sq_nonneg t.scale]
  have hsqrt : Real.sqrt (t.to_matrix.getD 0 0 * t.to_matrix.getD 4 0 -
      t.to_matrix.getD 1 0 * t.to_matrix.getD 3 0) = t.scale := by
    rw [hdetv]
    exact Real.sqrt_sq hs.le
  have hangle : atan2 (t.to_matrix.getD 3 0) (t.to_matrix.getD 4 0) = θ := by
    rw [hmat]
    norm_num [List.getD]
    unfold atan2
    have hmk : (⟨t.scale * Real.cos θ, t.scale * Real.sin θ⟩ : ℂ) =
        (t.scale : ℂ) * (Real.cos θ + Real.sin θ * Complex.I) := by
      rw [Complex.mk_eq_add_mul_I]
      push_cast
      ring
    rw [show (Complex.mk (t.scale * Real.cos θ) (t.scale * Real.sin θ)) =
        (⟨t.scale * Real.cos θ, t.scale * Real.sin θ⟩ : ℂ) from rfl, hmk,
      Complex.ofReal_cos, Complex.ofReal_sin]
    exact Complex.arg_mul_cos_add_sin_mul_I hs ⟨hθ1, hθ2⟩
  have hdeg : toDegrees θ = t.rotation := by
    rw [hθdef]
    unfold toRadians toDegrees
    field_simp
  have hok : Transform.of_matrix t.to_matrix =
      .ok (Transform.of_trs ⟨t.to_matrix.getD 2 0, t.to_matrix.getD 5 0⟩
        (toDegrees (atan2 (t.to_matrix.getD 3 0) (t.to_matrix.getD 4 0)))
        (if t.to_matrix.getD 0 0 * t.to_matrix.getD 4 0 -
            t.to_matrix.getD 1 0 * t.to_matrix.getD 3 0 < 0 then 0
         else Real.sqrt (t.to_matrix.getD 0 0 * t.to_matrix.getD 4 0 -
            t.to_matrix.getD 1 0 * t.to_matrix.getD 3 0))) := by
    simp only [Transform.of_matrix]
    rw [if_neg hlen, if_neg hbot, if_neg hskew, if_neg hdet9]
  refine ⟨_, hok, ?_, ?_, ?_, ?_⟩
  · rw [hmat]
    norm_num [Transform.of_trs, List.getD]
  · rw [hmat]
    norm_num [Transform.of_trs, List.getD]
  · simp only [Transform.of_trs]
    rw [hangle, hdeg]
    norm_num
  · simp only [Transform.of_trs]
    rw [if_neg hdet0, hsqrt]
    norm_num

/-- Witness for C3 at the identity transform. -/
theorem C3_of_matrix_to_matrix_roundtrip_witness :
    -180 < Transform.default.rotation ∧ Transform.default.rotation ≤ 180 ∧
      0 < Transform.default.scale ∧
      ∃ t', Transform.of_matrix Transform.default.to_matrix = .ok t' ∧
        |t'.translation.x - Transform.default.translation.x| ≤ 1e-6 ∧
        |t'.translation.y - Transform.default.translation.y| ≤ 1e-6 ∧
        |t'.rotation - Transform.default.rotation| ≤ 1e-6 ∧
        |t'.scale - Transform.default.scale| ≤ 1e-6 := by
  have h1 : -180 < Transform.default.rotation := by norm_num [Transform.default]
  have h2 : Transform.default.rotation ≤ 180 := by norm_num [Transform.default]
  have h3 : (0 : ℝ) < Transform.default.scale := by norm_num [Transform.default]
  exact ⟨h1, h2, h3, C3_of_matrix_to_matrix_roundtrip Transform.default h1 h2 h3⟩

/-- Witness for C9 at two concrete ellipse polygons differing only in
center. -/
theorem C9_ellipse_ignores_center_witness :
    epolyA.vertices = 0 ∧ epolyB.vertices = 0 ∧ epolyA.size = epolyB.size ∧
      epolyA.eccentricity = epolyB.eccentricity ∧
      epolyA.rotation = epolyB.rotation ∧
      (epolyA.as_paths = epolyB.as_paths ∧
        ∀ d : Point, (epolyA.addPt d).as_paths = epolyA.as_paths) :=
  ⟨rfl, rfl, rfl, rfl, rfl,
    C9_ellipse_ignores_center epolyA epolyB rfl rfl rfl rfl rfl⟩

/-- Witness for C6 at a concrete 2-gon without stellation: the corner list
has exactly 2 entries. -/
theorem C6_polygon_corners_witness :
    2 ≤ cpoly.vertices ∧ cpoly.get_points.length = 2 := by
  have h2 : 2 ≤ cpoly.vertices := by norm_num [cpoly]
  have h := (C6_polygon_corners cpoly h2).1
  refine ⟨h2, ?_⟩
  rw [h]
  norm_num [cpoly]

/-- Claim C5: rounding the closed unit-square path with `round(0.1, true)`
yields exactly 8 segments whose straight segments each span `[0.1, 0.9]`
along their edge; rounding the same path with `round(0.1, false)` yields 7
segments, with the first segment still starting at `(0,0)` and the last
segment still ending at `(0,0)` (the two segments meeting at the open end are
not shortened there). -/
theorem C5_round_unit_square :
    ((sqPath.round 0.1 true).elements.length = 8
      ∧ (sqPath.round 0.1 true).elements[0]? = some (.line ⟨0.1, 0⟩ ⟨0.9, 0⟩)
      ∧ (sqPath.round 0.1 true).elements[2]? = some (.line ⟨1, 0.1⟩ ⟨1, 0.9⟩)
      ∧ (sqPath.round 0.1 true).elements[4]? = some (.line ⟨0.9, 1⟩ ⟨0.1, 1⟩)
      ∧ (sqPath.round 0.1 true).elements[6]? = some (.line ⟨0, 0.9⟩ ⟨0, 0.1⟩))
    ∧ ((sqPath.round 0.1 false).elements.length = 7
      ∧ (sqPath.round 0.1 false).elements[0]? = some (.line ⟨0, 0⟩ ⟨0.9, 0⟩)
      ∧ (sqPath.round 0.1 false).elements[6]? = some (.line ⟨0, 0.9⟩ ⟨0, 0⟩)) := by
  have hcond : ¬ (sqPath.elements.length < 2 ∨ (0.1 : ℝ) = 0) := by
    push_neg
    exact ⟨by norm_num [sqPath], by norm_num⟩
  have e3 : BezierPath.roundStep 0.1 sqPath.elements 3 =
      [.line ⟨0.1, 0⟩ ⟨1, 0⟩, .line ⟨1, 0⟩ ⟨1, 1⟩, .line ⟨1, 1⟩ ⟨0, 1⟩,
        .line ⟨0, 1⟩ ⟨0, 0.1⟩, .corner ⟨0, 0.1⟩ ⟨0.1, 0⟩ 0.1] := by
    norm_num [BezierPath.roundStep, sqPath, List.get?, Bezier.is_line,
      Bezier.borrow_pt, Bezier.tangent_at, Bezier.of_round_corner,
      Point.norm_yaxis, Point.norm_xaxis, abs_neg, abs_of_pos,
      listInsertAt, List.set, Point.mk.injEq]
  have e2 : BezierPath.roundStep 0.1
      [Bezier.line ⟨0.1, 0⟩ ⟨1, 0⟩, .line ⟨1, 0⟩ ⟨1, 1⟩, .line ⟨1, 1⟩ ⟨0, 1⟩,
        .line ⟨0, 1⟩ ⟨0, 0.1⟩, .corner ⟨0, 0.1⟩ ⟨0.1, 0⟩ 0.1] 2 =
      [.line ⟨0.1, 0⟩ ⟨1, 0⟩, .line ⟨1, 0⟩ ⟨1, 1⟩, .line ⟨1, 1⟩ ⟨0.1, 1⟩,
        .corner ⟨0.1, 1⟩ ⟨0, 0.9⟩ 0.1, .line ⟨0, 0.9⟩ ⟨0, 0.1⟩,
        .corner ⟨0, 0.1⟩ ⟨0.1, 0⟩ 0.1] := by
    norm_num [BezierPath.roundStep, List.get?, Bezier.is_line,
      Bezier.borrow_pt, Bezier.tangent_at, Bezier.of_round_corner,
      Point.norm_yaxis, Point.norm_xaxis, abs_neg, abs_of_pos,
      listInsertAt, List.set, Point.mk.injEq]
  have e1 : BezierPath.roundStep 0.1
      [Bezier.line ⟨0.1, 0⟩ ⟨1, 0⟩, .line ⟨1, 0⟩ ⟨1, 1⟩, .line ⟨1, 1⟩ ⟨0.1, 1⟩,
        .corner ⟨0.1, 1⟩ ⟨0, 0.9⟩ 0.1, .line ⟨0, 0.9⟩ ⟨0, 0.1⟩,
        .corner ⟨0, 0.1⟩ ⟨0.1, 0⟩ 0.1] 1 =
      [.line ⟨0.1, 0⟩ ⟨1, 0⟩, .line ⟨1, 0⟩ ⟨1, 0.9⟩, .corner ⟨1, 0.9⟩ ⟨0.9, 1⟩ 0.1,
        .line ⟨0.9, 1⟩ ⟨0.1, 1⟩, .corner ⟨0.1, 1⟩ ⟨0, 0.9⟩ 0.1,
        .line ⟨0, 0.9⟩ ⟨0, 0.1⟩, .corner ⟨0, 0.1⟩ ⟨0.1, 0⟩ 0.1] := by
    norm_num [BezierPath.roundStep, List.get?, Bezier.is_line,
      Bezier.borrow_pt, Bezier.tangent_at, Bezier.of_round_corner,
      Point.norm_yaxis, Point.norm_xaxis, abs_neg, abs_of_pos,
      listInsertAt, List.set, Point.mk.injEq]
  have e0 : BezierPath.roundStep 0.1
      [Bezier.line ⟨0.1, 0⟩ ⟨1, 0⟩, .line ⟨1, 0⟩ ⟨1, 0.9⟩, .corner ⟨1, 0.9⟩ ⟨0.9, 1⟩ 0.1,
        .line ⟨0.9, 1⟩ ⟨0.1, 1⟩, .corner ⟨0.1, 1⟩ ⟨0, 0.9⟩ 0.1,
        .line ⟨0, 0.9⟩ ⟨0, 0.1⟩, .corner ⟨0, 0.1⟩ ⟨0.1, 0⟩ 0.1] 0 =
      [.line ⟨0.1, 0⟩ ⟨0.9, 0⟩, .corner ⟨0.9, 0⟩ ⟨1, 0.1⟩ 0.1,
        .line ⟨1, 0.1⟩ ⟨1, 0.9⟩, .corner ⟨1, 0.9⟩ ⟨0.9, 1⟩ 0.1,
        .line ⟨0.9, 1⟩ ⟨0.1, 1⟩, .corner ⟨0.1, 1⟩ ⟨0, 0.9⟩ 0.1,
        .line ⟨0, 0.9⟩ ⟨0, 0.1⟩, .corner ⟨0, 0.1⟩ ⟨0.1, 0⟩ 0.1] := by
    norm_num [BezierPath.roundStep, List.get?, Bezier.is_line,
      Bezier.borrow_pt, Bezier.tangent_at, Bezier.of_round_corner,
      Point.norm_yaxis, Point.norm_xaxis, abs_neg, abs_of_pos,
      listInsertAt, List.set, Point.mk.injEq]
  have hclosed : sqPath.round 0.1 true =
      ⟨[.line ⟨0.1, 0⟩ ⟨0.9, 0⟩, .corner ⟨0.9, 0⟩ ⟨1, 0.1⟩ 0.1,
        .line ⟨1, 0.1⟩ ⟨1, 0.9⟩, .corner ⟨1, 0.9⟩ ⟨0.9, 1⟩ 0.1,
        .line ⟨0.9, 1⟩ ⟨0.1, 1⟩, .corner ⟨0.1, 1⟩ ⟨0, 0.9⟩ 0.1,
        .line ⟨0, 0.9⟩ ⟨0, 0.1⟩, .corner ⟨0, 0.1⟩ ⟨0.1, 0⟩ 0.1]⟩ := by
    have hstart : sqPath.round 0.1 true =
        ⟨BezierPath.roundLoop 0.1 sqPath.elements 3⟩ := by
      unfold BezierPath.round
      rw [if_neg hcond]
      norm_num [sqPath]
    have hunroll : BezierPath.roundLoop 0.1 sqPath.elements 3 =
        BezierPath.roundStep 0.1
          (BezierPath.roundStep 0.1
            (BezierPath.roundStep 0.1
              (BezierPath.roundStep 0.1 sqPath.elements 3) 2) 1) 0 := rfl
    rw [hstart, hunroll, e3, e2, e1, e0]
  -- the open path: the traversal starts at n - 2 = 2
  have f2 : BezierPath.roundStep 0.1 sqPath.elements 2 =
      [.line ⟨0, 0⟩ ⟨1, 0⟩, .line ⟨1, 0⟩ ⟨1, 1⟩, .line ⟨1, 1⟩ ⟨0.1, 1⟩,
        .corner ⟨0.1, 1⟩ ⟨0, 0.9⟩ 0.1, .line ⟨0, 0.9⟩ ⟨0, 0⟩] := by
    norm_num [BezierPath.roundStep, sqPath, List.get?, Bezier.is_line,
      Bezier.borrow_pt, Bezier.tangent_at, Bezier.of_round_corner,
      Point.norm_yaxis, Point.norm_xaxis, abs_neg, abs_of_pos,
      listInsertAt, List.set, Point.mk.injEq]
  have f1 : BezierPath.roundStep 0.1
      [Bezier.line ⟨0, 0⟩ ⟨1, 0⟩, .line ⟨1, 0⟩ ⟨1, 1⟩, .line ⟨1, 1⟩ ⟨0.1, 1⟩,
        .corner ⟨0.1, 1⟩ ⟨0, 0.9⟩ 0.1, .line ⟨0, 0.9⟩ ⟨0, 0⟩] 1 =
      [.line ⟨0, 0⟩ ⟨1, 0⟩, .line ⟨1, 0⟩ ⟨1, 0.9⟩, .corner ⟨1, 0.9⟩ ⟨0.9, 1⟩ 0.1,
        .line ⟨0.9, 1⟩ ⟨0.1, 1⟩, .corner ⟨0.1, 1⟩ ⟨0, 0.9⟩ 0.1,
        .line ⟨0, 0.9⟩ ⟨0, 0⟩] := by
    norm_num [BezierPath.roundStep, List.get?, Bezier.is_line,
      Bezier.borrow_pt, Bezier.tangent_at, Bezier.of_round_corner,
      Point.norm_yaxis, Point.norm_xaxis, abs_neg, abs_of_pos,
      listInsertAt, List.set, Point.mk.injEq]
  have f0 : BezierPath.roundStep 0.1
      [Bezier.line ⟨0, 0⟩ ⟨1, 0⟩, .line ⟨1, 0⟩ ⟨1, 0.9⟩, .corner ⟨1, 0.9⟩ ⟨0.9, 1⟩ 0.1,
        .line ⟨0.9, 1⟩ ⟨0.1, 1⟩, .corner ⟨0.1, 1⟩ ⟨0, 0.9⟩ 0.1,
        .line ⟨0, 0.9⟩ ⟨0, 0⟩] 0 =
      [.line ⟨0, 0⟩ ⟨0.9, 0⟩, .corner ⟨0.9, 0⟩ ⟨1, 0.1⟩ 0.1,
        .line ⟨1, 0.1⟩ ⟨1, 0.9⟩, .corner ⟨1, 0.9⟩ ⟨0.9, 1⟩ 0.1,
        .line ⟨0.9, 1⟩ ⟨0.1, 1⟩, .corner ⟨0.1, 1⟩ ⟨0, 0.9⟩ 0.1,
        .line ⟨0, 0.9⟩ ⟨0, 0⟩] := by
    norm_num [BezierPath.roundStep, List.get?, Bezier.is_line,
      Bezier.borrow_pt, Bezier.tangent_at, Bezier.of_round_corner,
      Point.norm_yaxis, Point.norm_xaxis, abs_neg, abs_of_pos,
      listInsertAt, List.set, Point.mk.injEq]
  have hopen : sqPath.round 0.1 false =
      ⟨[.line ⟨0, 0⟩ ⟨0.9, 0⟩, .corner ⟨0.9, 0⟩ ⟨1, 0.1⟩ 0.1,
        .line ⟨1, 0.1⟩ ⟨1, 0.9⟩, .corner ⟨1, 0.9⟩ ⟨0.9, 1⟩ 0.1,
        .line ⟨0.9, 1⟩ ⟨0.1, 1⟩, .corner ⟨0.1, 1⟩ ⟨0, 0.9⟩ 0.1,
        .line ⟨0, 0.9⟩ ⟨0, 0⟩]⟩ := by
    have hstart : sqPath.round 0.1 false =
        ⟨BezierPath.roundLoop 0.1 sqPath.elements 2⟩ := by
      unfold BezierPath.round
      rw [if_neg hcond]
      norm_num [sqPath]
    have hunroll : BezierPath.roundLoop 0.1 sqPath.elements 2 =
        BezierPath.roundStep 0.1
          (BezierPath.roundStep 0.1
            (BezierPath.roundStep 0.1 sqPath.elements 2) 1) 0 := rfl
    rw [hstart, hunroll, f2, f1, f0]
  rw [hclosed, hopen]
  refine ⟨⟨rfl, rfl, rfl, rfl, rfl⟩, rfl, rfl, rfl⟩

/-- The child-finalizing loop visits exactly the children, in order. -/
theorem finalizeL_eq_map (cfg : SvgConfig) (l : List SvgElement) :
    finalizeL cfg l = l.map (finalizeE cfg) := by
  induction l with
  | nil => rfl
  | cons c cs ih => simp [finalizeL, ih]

/-- Flattening a list of singleton blocks is a map. -/
theorem flatten_singletons {α β : Type} (l : List α) (f : α → β) :
    (l.map fun c => [f c]).flatten = l.map f := by
  induction l with
  | nil => rfl
  | cons c cs ih => simp [ih]

/-- When content rectangles are enabled, `SvgElement::finalize` returns
exactly one extra node: the outline of the node's own content bounding
box. -/
theorem finalizeE_extra_eq (cfg : SvgConfig) (w : ℝ) (col : Color)
    (h : cfg.show_content_rectangles = some (w, col)) (e : SvgElement) :
    (finalizeE cfg e).2 = [outlineNode cfg w col e] := by
  obtain ⟨sg, sl, scr⟩ := cfg
  simp only at h
  subst h
  cases e with
  | mk t attrs tr cts ch bb => rfl

/-- Claim C2: when `show_content_rectangles` is `Some((line_width, color))`,
finalizing adds, for every finalized node, exactly one synthesized outline
node covering that node's bounding box; each child's outline lands in its
parent's child list (after the finalized children), and the top-level
elements' outlines land in the diagram's top-level contents — never inside
the node that produced the outline. -/
theorem C2_show_content_rectangles (cfg : SvgConfig) (w : ℝ) (col : Color)
    (h : cfg.show_content_rectangles = some (w, col)) (e : SvgElement) :
    (finalizeE cfg e).2 = [outlineNode cfg w col e]
    ∧ (finalizeE cfg e).1.contents =
        e.contents.map (fun c => (finalizeE cfg c).1) ++
          e.contents.map (outlineNode cfg w col)
    ∧ (∀ s : Svg, s.config = cfg → s.stack = [] →
        ∃ s', s.finalize = some s' ∧
          s'.contents = s.contents.map (fun c => (finalizeE cfg c).1) ++
            s.contents.map (outlineNode cfg w col)) := by
  have hcontents : ∀ l : List SvgElement,
      (finalizeL cfg l).map Prod.fst ++ ((finalizeL cfg l).map Prod.snd).flatten =
        l.map (fun c => (finalizeE cfg c).1) ++ l.map (outlineNode cfg w col) := by
    intro l
    rw [finalizeL_eq_map]
    congr 1
    · simp [List.map_map, Function.comp]
    · rw [List.map_map]
      have : (Prod.snd ∘ finalizeE cfg) = fun c => [outlineNode cfg w col c] := by
        funext c
        exact finalizeE_extra_eq cfg w col h c
      rw [this, flatten_singletons]
  refine ⟨finalizeE_extra_eq cfg w col h e, ?_, ?_⟩
  · cases e with
    | mk t attrs tr cts ch bb =>
      show ((finalizeL cfg cts).map Prod.fst ++
          ((finalizeL cfg cts).map Prod.snd).flatten) = _
      exact hcontents cts
  · intro s hc hs
    have hne : ¬ s.stack ≠ [] := by rw [hs]; simp
    have hfin : s.finalize = some ⟨s.config,
        (finalizeL s.config s.contents).foldl (fun b c => b.union c.1.bbox) BBox.none,
        (finalizeL s.config s.contents).map Prod.fst ++
          ((finalizeL s.config s.contents).map Prod.snd).flatten,
        s.definitions, s.stack⟩ := by
      unfold Svg.finalize
      rw [if_neg hne]
    refine ⟨_, hfin, ?_⟩
    show ((finalizeL s.config s.contents).map Prod.fst ++
        ((finalizeL s.config s.contents).map Prod.snd).flatten) = _
    rw [hc]
    exact hcontents s.contents

/-- Witness for C2 at a concrete configuration and a concrete childless
element. -/
theorem C2_show_content_rectangles_witness :
    ccfg.show_content_rectangles = some (1, ccolor)
    ∧ (finalizeE ccfg cleaf).2 = [outlineNode ccfg 1 ccolor cleaf]
    ∧ (finalizeE ccfg cleaf).1.contents =
        cleaf.contents.map (fun c => (finalizeE ccfg c).1) ++
          cleaf.contents.map (outlineNode ccfg 1 ccolor) :=
  ⟨rfl, (C2_show_content_rectangles ccfg 1 ccolor rfl cleaf).1,
    (C2_show_content_rectangles ccfg 1 ccolor rfl cleaf).2.1⟩

/-- Unfolding `runFuel` one step when `next` produces an event. -/
theorem runFuel_succ_some {it it' : ElementIter} {ev : XmlEvent} (f : Nat)
    (h : it.next = (it', some ev)) :
    runFuel (f + 1) it = (ev :: (runFuel f it').1, (runFuel f it').2) := by
  simp [runFuel, h]

/-- `runFuel` only depends on the behaviour of `next` when at least one step
of fuel remains. -/
theorem runFuel_congr {it₁ it₂ : ElementIter} (h : it₁.next = it₂.next) :
    ∀ f, 0 < f → runFuel f it₁ = runFuel f it₂ := by
  intro f hf
  obtain ⟨g, rfl⟩ : ∃ g, f = g + 1 := ⟨f - 1, by omega⟩
  simp only [runFuel, h]

/-- A completed iterator produces nothing. -/
theorem runCompleted (s : List (SvgElement × Nat)) :
    ∀ f, runFuel f ⟨.completed, s⟩ = ([], ⟨.completed, s⟩) := by
  intro f
  cases f with
  | zero => rfl
  | succ g => rfl

/-- The canonical event list of an element is never empty. -/
theorem elemEvents_length_pos (e : SvgElement) : 0 < (elemEvents e).length := by
  cases e with
  | mk t a tr cts ch bb => simp [elemEvents]

/-- Every tree has at least one node. -/
theorem sizeE_pos (e : SvgElement) : 1 ≤ sizeE e := by
  cases e with
  | mk t a tr cts ch bb => simp [sizeE]

/-- A member of a list of trees is no bigger than the whole list. -/
theorem sizeE_le_sizeL {c : SvgElement} {l : List SvgElement} (h : c ∈ l) :
    sizeE c ≤ sizeL l := by
  induction l with
  | nil => cases h
  | cons a l ih =>
    rcases List.mem_cons.mp h with rfl | h
    · simp [sizeL]
    · have := ih h
      simp [sizeL]
      omega

/-- Processing the remaining children `todo` of `e` from the `PreContent`
state (child index `n`) emits their events and `e`'s close event, then
continues at `FindNextElement` with `e`'s child index fully advanced. -/
theorem runChildren (e : SvgElement) (todo : List SvgElement)
    (hE : ∀ c ∈ todo, EProp c) :
    ∀ n, e.contents.drop n = todo → n ≤ e.contents.length →
      ∀ (rest : List (SvgElement × Nat)) (fuel : Nat),
        runFuel ((elemEventsL todo).length + 1 + fuel) ⟨.preContent, (e, n) :: rest⟩ =
          (elemEventsL todo ++ [.endElement e] ++
              (runFuel fuel ⟨.findNextElement, (e, e.contents.length) :: rest⟩).1,
            (runFuel fuel ⟨.findNextElement, (e, e.contents.length) :: rest⟩).2) := by
  induction todo with
  | nil =>
    intro n hdrop hle rest fuel
    have hn : n = e.contents.length := by
      have := List.drop_eq_nil_iff.mp hdrop
      omega
    subst hn
    have hnext : ElementIter.next ⟨.preContent, (e, e.contents.length) :: rest⟩ =
        (⟨.findNextElement, (e, e.contents.length) :: rest⟩,
          some (.endElement e)) := by
      show nextPreContent ((e, e.contents.length) :: rest) = _
      simp [nextPreContent, nextPostContent]
    rw [show (elemEventsL []).length + 1 + fuel = fuel + 1 by simp [elemEventsL]; omega]
    rw [runFuel_succ_some fuel hnext]
    simp [elemEventsL]
  | cons c todo' ih =>
    intro n hdrop hle rest fuel
    have hn : n < e.contents.length := by
      by_contra hcon
      rw [List.drop_eq_nil_iff.mpr (by omega)] at hdrop
      exact List.noConfusion hdrop
    have hget : e.contents.getD n (SvgElement.new .group) = c := by
      have h0 : (e.contents.drop n)[0]? = some c := by rw [hdrop]; simp
      rw [List.getElem?_drop, Nat.add_zero] at h0
      simp [List.getD, h0]
    have hdrop' : e.contents.drop (n + 1) = todo' := by
      have := List.tail_drop e.contents n
      rw [hdrop] at this
      exact this.symm
    have hnext1 : ElementIter.next ⟨.preContent, (e, n) :: rest⟩ =
        ElementIter.next ⟨.preElement, (c, 0) :: (e, n) :: rest⟩ := by
      show nextPreContent ((e, n) :: rest) = nextPreElement ((c, 0) :: (e, n) :: rest)
      simp only [nextPreContent]
      rw [if_pos hn, hget]
    have hnext2 : ElementIter.next
        ⟨.findNextElement, (c, c.contents.length) :: (e, n) :: rest⟩ =
        ElementIter.next ⟨.preContent, (e, n + 1) :: rest⟩ := rfl
    have hlen : (elemEventsL (c :: todo')).length + 1 + fuel =
        (elemEvents c).length + ((elemEventsL todo').length + 1 + fuel) := by
      simp [elemEventsL]
      omega
    rw [hlen]
    rw [runFuel_congr hnext1 _ (by have := elemEvents_length_pos c; omega)]
    rw [hE c (List.mem_cons_self c todo') ((e, n) :: rest)
      ((elemEventsL todo').length + 1 + fuel)]
    rw [runFuel_congr hnext2 _ (by omega)]
    rw [ih (fun d hd => hE d (List.mem_cons_of_mem c hd)) (n + 1) hdrop' (by omega) rest fuel]
    simp [elemEventsL]

/-- Every element satisfies `EProp`: one pass from `PreElement` emits exactly
its canonical event list (proved by strong induction on the tree size). -/
theorem runElemAux : ∀ (k : Nat) (e : SvgElement), sizeE e ≤ k → EProp e := by
  intro k
  induction k with
  | zero =>
    intro e hk
    have := sizeE_pos e
    omega
  | succ k ih =>
    intro e hk
    cases e with
    | mk t a tr cts ch bb =>
      intro rest fuel
      have hchild : ∀ c ∈ cts, EProp c := by
        intro c hc
        apply ih
        have h1 : sizeE c ≤ sizeL cts := sizeE_le_sizeL hc
        have h2 : sizeE (SvgElement.mk t a tr cts ch bb) = 1 + sizeL cts := rfl
        omega
      have hnext1 : ElementIter.next
          ⟨.preElement, (SvgElement.mk t a tr cts ch bb, 0) :: rest⟩ =
          (⟨.preString, (SvgElement.mk t a tr cts ch bb, 0) :: rest⟩,
            some (.startElement (SvgElement.mk t a tr cts ch bb))) := rfl
      have hrc := runChildren (SvgElement.mk t a tr cts ch bb) cts hchild 0 rfl
        (by omega) rest fuel
      by_cases hch : ch ≠ ""
      · have hnext2 : ElementIter.next
            ⟨.preString, (SvgElement.mk t a tr cts ch bb, 0) :: rest⟩ =
            (⟨.preContent, (SvgElement.mk t a tr cts ch bb, 0) :: rest⟩,
              some (.characters (SvgElement.mk t a tr cts ch bb))) := by
          show nextPreString ((SvgElement.mk t a tr cts ch bb, 0) :: rest) = _
          simp only [nextPreString]
          rw [if_pos (by exact hch)]
        have hlen : (elemEvents (SvgElement.mk t a tr cts ch bb)).length + fuel =
            (((elemEventsL cts).length + 1 + fuel) + 1) + 1 := by
          simp [elemEvents, hch]
          omega
        rw [hlen, runFuel_succ_some _ hnext1, runFuel_succ_some _ hnext2, hrc]
        simp [elemEvents, hch]
      · have hnext2 : ElementIter.next
            ⟨.preString, (SvgElement.mk t a tr cts ch bb, 0) :: rest⟩ =
            ElementIter.next
              ⟨.preContent, (SvgElement.mk t a tr cts ch bb, 0) :: rest⟩ := by
          show nextPreString ((SvgElement.mk t a tr cts ch bb, 0) :: rest) =
            nextPreContent ((SvgElement.mk t a tr cts ch bb, 0) :: rest)
          simp only [nextPreString]
          rw [if_neg (show ¬ ((SvgElement.mk t a tr cts ch bb).characters ≠ "") from hch)]
        have hlen : (elemEvents (SvgElement.mk t a tr cts ch bb)).length + fuel =
            (((elemEventsL cts).length + 1 + fuel)) + 1 := by
          simp [elemEvents, hch]
          omega
        rw [hlen, runFuel_succ_some _ hnext1,
          runFuel_congr hnext2 _ (by omega), hrc]
        simp [elemEvents, hch]

/-- Event counting distributes over append. -/
theorem countEv_append (p : XmlEvent → Bool) (a b : List XmlEvent) :
    countEv p (a ++ b) = countEv p a + countEv p b := by
  simp [countEv, List.filter_append]

/-- Event counting on a cons cell. -/
theorem countEv_cons (p : XmlEvent → Bool) (x : XmlEvent) (l : List XmlEvent) :
    countEv p (x :: l) = (if p x then 1 else 0) + countEv p l := by
  simp only [countEv, List.filter_cons]
  split
  · simp [Nat.add_comm]
  · simp

/-- The canonical event list of a tree contains one open and one close event
per node, one characters event per node with non-empty content, no document
markers, and has length `2*n + c` (strong induction on the tree size). -/
theorem countsAux : ∀ (k : Nat) (e : SvgElement), sizeE e ≤ k →
    countEv isStartEle (elemEvents e) = sizeE e
    ∧ countEv isEndEle (elemEvents e) = sizeE e
    ∧ countEv isCharacters (elemEvents e) = charCount e
    ∧ countEv isStartDoc (elemEvents e) = 0
    ∧ countEv isEndDoc (elemEvents e) = 0
    ∧ (elemEvents e).length = 2 * sizeE e + charCount e := by
  intro k
  induction k with
  | zero =>
    intro e hk
    have := sizeE_pos e
    omega
  | succ k ih =>
    intro e hk
    have hlist : ∀ l : List SvgElement, (∀ c ∈ l, sizeE c ≤ k) →
        countEv isStartEle (elemEventsL l) = sizeL l
        ∧ countEv isEndEle (elemEventsL l) = sizeL l
        ∧ countEv isCharacters (elemEventsL l) = charCountL l
        ∧ countEv isStartDoc (elemEventsL l) = 0
        ∧ countEv isEndDoc (elemEventsL l) = 0
        ∧ (elemEventsL l).length = 2 * sizeL l + charCountL l := by
      intro l
      induction l with
      | nil =>
        intro _
        refine ⟨rfl, rfl, rfl, rfl, rfl, rfl⟩
      | cons c l ihl =>
        intro hm
        obtain ⟨e1, e2, e3, e4, e5, e6⟩ := ih c (hm c (List.mem_cons_self c l))
        obtain ⟨f1, f2, f3, f4, f5, f6⟩ := ihl fun d hd => hm d (List.mem_cons_of_mem c hd)
        have g1 : elemEventsL (c :: l) = elemEvents c ++ elemEventsL l := rfl
        have g2 : sizeL (c :: l) = sizeE c + sizeL l := rfl
        have g3 : charCountL (c :: l) = charCount c + charCountL l := rfl
        rw [g1, g2, g3]
        simp only [countEv_append, List.length_append,
          e1, e2, e3, e4, e5, e6, f1, f2, f3, f4, f5, f6]
        exact ⟨trivial, trivial, trivial, trivial, trivial, by omega⟩
    cases e with
    | mk t a tr cts ch bb =>
      have hcts : ∀ c ∈ cts, sizeE c ≤ k := by
        intro c hc
        have h1 : sizeE c ≤ sizeL cts := sizeE_le_sizeL hc
        have h2 : sizeE (SvgElement.mk t a tr cts ch bb) = 1 + sizeL cts := rfl
        omega
      obtain ⟨f1, f2, f3, f4, f5, f6⟩ := hlist cts hcts
      by_cases hch : ch ≠ ""
      · simp only [elemEvents, sizeE, charCount, if_pos hch, countEv_cons, countEv_append,
          List.length_cons, List.length_append, f1, f2, f3, f4, f5, f6]
        simp [isStartEle, isEndEle, isCharacters, isStartDoc, isEndDoc, countEv]
        omega
      · simp only [elemEvents, sizeE, charCount, if_neg hch, countEv_cons, countEv_append,
          List.length_cons, List.length_append, f1, f2, f3, f4, f5, f6]
        simp [isStartEle, isEndEle, isCharacters, isStartDoc, isEndDoc, countEv]
        omega

/-- A call of `next` that produces no event leaves the iterator unchanged
(so the terminal state is a fixed point). -/
theorem next_none_fix : ∀ it : ElementIter, (it.next).2 = Option.none →
    it.next = (it, Option.none) := by
  rintro ⟨st, els⟩ h
  cases st with
  | preDocument => simp [ElementIter.next] at h
  | preElement =>
    match els with
    | [] => rfl
    | (e, n) :: rest => simp [ElementIter.next, nextPreElement] at h
  | preString =>
    match els with
    | [] => rfl
    | (e, n) :: rest =>
      simp only [ElementIter.next, nextPreString, nextPreContent, nextPreElement,
        nextPostContent] at h
      split_ifs at h
  | preContent =>
    match els with
    | [] => rfl
    | (e, n) :: rest =>
      simp only [ElementIter.next, nextPreContent, nextPreElement, nextPostContent] at h
      split_ifs at h
  | postContent =>
    match els with
    | [] => rfl
    | (e, n) :: rest => simp [ElementIter.next, nextPostContent] at h
  | findNextElement =>
    match els with
    | [] => simp [ElementIter.next, nextFindNext, nextDocumentEnd] at h
    | [(e, n)] => simp [ElementIter.next, nextFindNext, nextDocumentEnd] at h
    | (c, kk) :: (e, n) :: rest =>
      simp only [ElementIter.next, nextFindNext, nextPreElement, nextPostContent] at h
      split_ifs at h
  | documentEnd => simp [ElementIter.next, nextDocumentEnd] at h
  | completed => rfl

/-- Claim C1: exhausting a fresh `ElementIter` over a finalized tree with
`n` nodes yields, in one finite pass, exactly one start-of-document event,
`n` element-open events, `n` element-close events, one characters event per
node with non-empty character content, and one end-of-document event —
`2 + 2n + c` events in total — and once `next()` has returned `None`, every
later call to `next()` also returns `None`. -/
theorem C1_event_iterator (e : SvgElement) :
    (∀ extra, runFuel (2 + (elemEvents e).length + extra) (ElementIter.new e) =
        (docEvents e, ⟨.completed, [(e, e.contents.length)]⟩))
    ∧ countEv isStartDoc (docEvents e) = 1
    ∧ countEv isStartEle (docEvents e) = sizeE e
    ∧ countEv isEndEle (docEvents e) = sizeE e
    ∧ countEv isCharacters (docEvents e) = charCount e
    ∧ countEv isEndDoc (docEvents e) = 1
    ∧ (docEvents e).length = 2 + 2 * sizeE e + charCount e
    ∧ 1 ≤ sizeE e
    ∧ (∀ it : ElementIter, (it.next).2 = Option.none →
        ∀ k, ((iterN k it).next).2 = Option.none) := by
  obtain ⟨c1, c2, c3, c4, c5, c6⟩ := countsAux (sizeE e) e le_rfl
  refine ⟨?_, ?_, ?_, ?_, ?_, ?_, ?_, sizeE_pos e, ?_⟩
  · intro extra
    have h1 : (ElementIter.new e).next =
        (⟨.preElement, [(e, 0)]⟩, some .startDocument) := rfl
    have hEP := runElemAux (sizeE e) e le_rfl [] (1 + extra)
    have h2 : (ElementIter.next ⟨.findNextElement, [(e, e.contents.length)]⟩) =
        (⟨.completed, [(e, e.contents.length)]⟩, some .endDocument) := rfl
    rw [show 2 + (elemEvents e).length + extra =
      ((elemEvents e).length + (1 + extra)) + 1 by omega]
    rw [runFuel_succ_some _ h1, hEP]
    rw [show 1 + extra = extra + 1 by omega]
    rw [runFuel_succ_some _ h2, runCompleted]
    simp [docEvents]
  · simp only [docEvents, countEv_cons, countEv_append, c4]
    norm_num [countEv, isStartDoc, List.filter]
  · simp only [docEvents, countEv_cons, countEv_append, c1]
    norm_num [countEv, isStartEle, List.filter]
  · simp only [docEvents, countEv_cons, countEv_append, c2]
    norm_num [countEv, isEndEle, List.filter]
  · simp only [docEvents, countEv_cons, countEv_append, c3]
    norm_num [countEv, isCharacters, List.filter]
  · simp only [docEvents, countEv_cons, countEv_append, c5]
    norm_num [countEv, isEndDoc, List.filter]
  · simp only [docEvents, List.length_cons, List.length_append, List.length_nil, c6]
    omega
  · intro it h k
    have hfix := next_none_fix it h
    induction k with
    | zero => exact h
    | succ k ihk =>
      show ((iterN k (it.next).1).next).2 = Option.none
      rw [hfix]
      exact ihk

/-- Witness for C1 at a concrete two-node tree (the child carrying character
content), and the none-stability instantiated at a concrete exhausted
iterator. -/
theorem C1_event_iterator_witness :
    sizeE ctree = 2 ∧ charCount ctree = 1
    ∧ runFuel (2 + (elemEvents ctree).length + 0) (ElementIter.new ctree) =
        (docEvents ctree, ⟨.completed, [(ctree, ctree.contents.length)]⟩)
    ∧ countEv isStartEle (docEvents ctree) = sizeE ctree
    ∧ (docEvents ctree).length = 2 + 2 * sizeE ctree + charCount ctree
    ∧ ((ElementIter.mk .completed []).next).2 = Option.none
    ∧ ∀ k, ((iterN k (ElementIter.mk .completed [])).next).2 = Option.none := by
  have h := C1_event_iterator ctree
  exact ⟨rfl, rfl, h.1 0, h.2.2.1, h.2.2.2.2.2.2.1,
    rfl, h.2.2.2.2.2.2.2.2 ⟨.completed, []⟩ rfl⟩
